import Mathlib

/-!
Verification of the cyro log-analysis pipeline against its specification.

This file shallowly embeds the Go sources of the cyro repository in Lean 4:

* internal/config/config.go      - log levels, log entries
* internal/preprocess/compress.go - the compressor (Compress, writeTemplates, ...)
* internal/preprocess/redact.go   - the correlation-preserving redactor
* internal/preprocess/patterns.go - the built-in redaction patterns (ipv4)
* internal/preprocess/drain.go    - the Drain template extractor
* internal/parser/parser.go       - the streaming parser (scanner discipline)
* internal/analyzer/analyzer.go   - time-window analysis
* internal/prompt                 - the prompt builder

Modelling conventions, used throughout:

* Go `int` values that are always non-negative in the modelled code are Nat;
  where Go subtraction can go negative (token budgets) we use Int.
* Go `time.Time` is modelled as Nat nanoseconds since the zero time, with 0
  playing the role of the zero value (`IsZero`).
* Go maps used only for lookup/insert are association lists.
* Go `len` on strings is the UTF-8 byte length (`String.utf8ByteSize`).
* Locking (`sync.Mutex`) is dropped: we model the sequential semantics.
-/

namespace Cyro

/-! ## Shared string helpers -/

/-- Go byte length of a string (`len(s)` in Go). -/
def goLen (s : String) : Nat := s.utf8ByteSize

/-- Helper for `goFields`: scan the character list, accumulating the current
run of non-whitespace characters (in reverse). -/
def fieldsAux : List Char → List Char → List String
  | [], acc => if acc.isEmpty then [] else [String.mk acc.reverse]
  | c :: cs, acc =>
    if c.isWhitespace then
      if acc.isEmpty then fieldsAux cs []
      else String.mk acc.reverse :: fieldsAux cs []
    else fieldsAux cs (c :: acc)

/-- Embedding of Go `strings.Fields` (and of the Drain tokenizer regex
`[^\s]+`, which produces the same token list): maximal runs of
non-whitespace characters.  Go uses `unicode.IsSpace`; all inputs considered
in this development only contain ASCII whitespace, for which
`Char.isWhitespace` agrees. -/
def goFields (s : String) : List String := fieldsAux s.data []

/-- Decidable substring test (Go `strings.Contains`): some contiguous run of
`hay`'s characters equals `needle`. -/
def strHasSub (hay needle : String) : Bool :=
  (List.range (hay.length + 1)).any
    (fun i => ((hay.data.drop i).take needle.length) == needle.data)

/-! ## LogLevel and LogEntry (internal/config/config.go)

Go declares `type LogLevel int` with the iota enumeration
Debug=0, Info=1, Warn=2, Error=3, Fatal=4, Unknown=5.
We keep the integer representation, since the Go code compares levels
numerically. -/

abbrev LogLevel := Nat

def LevelDebug : LogLevel := 0
def LevelInfo : LogLevel := 1
def LevelWarn : LogLevel := 2
def LevelError : LogLevel := 3
def LevelFatal : LogLevel := 4
def LevelUnknown : LogLevel := 5

/-- Embedding of `LogLevel.String`. -/
def levelString (l : LogLevel) : String :=
  if l = LevelDebug then "DEBUG"
  else if l = LevelInfo then "INFO"
  else if l = LevelWarn then "WARN"
  else if l = LevelError then "ERROR"
  else if l = LevelFatal then "FATAL"
  else "UNKNOWN"

/-- Embedding of `config.LogEntry`, restricted to the fields the compressor
and analyzer read (Raw, Source, Fields and Line are never consulted by the
functions verified here).  `timestamp` is in nanoseconds, 0 = zero time. -/
structure LogEntry where
  message : String
  level : LogLevel
  timestamp : Nat
deriving Repr, DecidableEq

/-! ## Drain templates (internal/preprocess/drain.go, type Template)

The same `Template` struct is consumed by the compressor (both live in
package preprocess). -/

structure Template where
  id : String
  pattern : String
  tokens : List String
  count : Nat
  examples : List String
deriving Repr, DecidableEq

/-! ## Compressor data model (internal/preprocess/compress.go) -/

/-- Embedding of `TimeRange`. -/
structure TimeRange where
  start : Nat
  endT : Nat
deriving Repr, DecidableEq

/-- Embedding of `TemplateSummary`. -/
structure TemplateSummary where
  pattern : String
  count : Nat
  level : LogLevel
  examples : List String
  firstSeen : Nat
  lastSeen : Nat
deriving Repr, DecidableEq

instance : Inhabited TemplateSummary := ⟨⟨"", 0, 0, [], 0, 0⟩⟩

/-- Embedding of `CompressedOutput`.  The open-ended `Metadata` map is not
modelled (no claim mentions it); `TokenCount`/`TokenLimit` are Int because
the Go fields are `int` and the budget arithmetic subtracts. -/
structure CompressedOutput where
  summary : String
  timeRange : TimeRange
  totalLines : Nat
  totalTemplates : Nat
  templates : List TemplateSummary
  redactedCount : Nat
  tokenCount : Int
  tokenLimit : Int
deriving Repr, DecidableEq

/-- Embedding of `estimateTokens`: `len(text) / charsPerToken` with
`charsPerToken = 4` (Go integer division on the byte length). -/
def estimateTokens (text : String) : Int := ((goLen text) / 4 : Nat)

/-- Embedding of `calculateTimeRange`: fold over the entries, skipping zero
timestamps, tracking the earliest start and latest end exactly as the Go
loop does. -/
def calculateTimeRange (entries : List LogEntry) : TimeRange :=
  entries.foldl
    (fun tr e =>
      if e.timestamp = 0 then tr
      else
        { start := if tr.start = 0 ∨ e.timestamp < tr.start then e.timestamp else tr.start,
          endT := if tr.endT = 0 ∨ e.timestamp > tr.endT then e.timestamp else tr.endT })
    ⟨0, 0⟩

/-- Embedding of `matchesTemplate`: tokenize both message and pattern with
`strings.Fields`; token counts must agree and each pattern token is either
the wildcard `<*>` or equal to the message token at the same position. -/
def matchesTemplate (message : String) (t : Template) : Bool :=
  let messageTokens := goFields message
  let templateTokens := goFields t.pattern
  messageTokens.length == templateTokens.length &&
    (templateTokens.zip messageTokens).all
      (fun p => p.1 == "<*>" || p.1 == p.2)

/-- Append a value to the bucket of key `k` in an association list,
creating the bucket if absent (`templateEntries[id] = append(...)`). -/
def alistAppend : List (String × List LogEntry) → String → LogEntry →
    List (String × List LogEntry)
  | [], k, e => [(k, [e])]
  | kv :: m, k, e =>
    if kv.1 == k then (kv.1, kv.2 ++ [e]) :: m else kv :: alistAppend m k e

/-- Lookup of a bucket, empty when the key is absent (Go map read). -/
def alistGet (m : List (String × List LogEntry)) (k : String) : List LogEntry :=
  match m.find? (fun kv => kv.1 == k) with
  | some kv => kv.2
  | none => []

/-- Embedding of the linking loop at the top of `createTemplateSummaries`:
for each entry, the inner loop over templates breaks at the first template
whose pattern matches, appending the entry to that template ID's bucket. -/
def linkEntries (entries : List LogEntry) (drainTemplates : List Template) :
    List (String × List LogEntry) :=
  entries.foldl
    (fun m e =>
      match drainTemplates.find? (fun t => matchesTemplate e.message t) with
      | some t => alistAppend m t.id e
      | none => m)
    []

/-- Embedding of the per-template body of `createTemplateSummaries`: the
severity fold starts at `LevelUnknown` and raises on strictly greater
levels; first/last seen fold skips zero timestamps. -/
def summaryOf (t : Template) (es : List LogEntry) : TemplateSummary :=
  let maxLevel := es.foldl (fun acc e => if e.level > acc then e.level else acc) LevelUnknown
  let seen := es.foldl
    (fun (p : Nat × Nat) e =>
      if e.timestamp = 0 then p
      else
        ((if p.1 = 0 ∨ e.timestamp < p.1 then e.timestamp else p.1),
         (if p.2 = 0 ∨ e.timestamp > p.2 then e.timestamp else p.2)))
    (0, 0)
  { pattern := t.pattern, count := t.count, level := maxLevel,
    examples := t.examples, firstSeen := seen.1, lastSeen := seen.2 }

/-- Embedding of `createTemplateSummaries`: link entries to templates, then
emit one summary per template whose bucket is non-empty (templates with an
empty bucket are skipped by the `continue`). -/
def createTemplateSummaries (entries : List LogEntry) (drainTemplates : List Template) :
    List TemplateSummary :=
  let m := linkEntries entries drainTemplates
  drainTemplates.filterMap
    (fun t =>
      let es := alistGet m t.id
      if es.isEmpty then none else some (summaryOf t es))

/-- Written from the claim's words, not from the source: token-for-token
matching of a pattern-token list against a message-token list, where the
wildcard `<*>` matches exactly one arbitrary token.  Compared against the
source's `matchesTemplate` in the C10 theorems. -/
def specMatchShape : List String → List String → Bool
  | [], [] => true
  | p :: ps, m :: ms => (p == "<*>" || p == m) && specMatchShape ps ms
  | _, _ => false

/-- Written from the claim's words: the pattern matches the message
token-for-token with `<*>` matching any single token. -/
def specMatches (message : String) (t : Template) : Bool :=
  specMatchShape (goFields t.pattern) (goFields message)

/-- Embedding of `templatePriorityScore`.  Go computes
`float64(level)*1000 + float64(count)`; for level at most 5 and counts far
below 2^52 the float arithmetic and comparison are exact, so the Nat value
is a faithful model. -/
def templatePriorityScore (t : TemplateSummary) : Nat :=
  t.level * 1000 + t.count

/-- Swap two positions of a list (models the Go slice swap
`templates[i], templates[j] = templates[j], templates[i]`). -/
def listSwap (l : List TemplateSummary) (i j : Nat) : List TemplateSummary :=
  (l.set i (l.getD j default)).set j (l.getD i default)

/-- Embedding of `prioritizeTemplates` (in-place bubble sort: for each i,
for each j greater than i, swap when score j strictly exceeds score i).
The Go loops run i over [0, n-1) and j over (i, n); we run both indices over
[0, n) guarded by i < j, which visits exactly the same (i, j) pairs in the
same order. -/
def prioritizeTemplates (ts : List TemplateSummary) : List TemplateSummary :=
  (List.range ts.length).foldl
    (fun acc i =>
      (List.range ts.length).foldl
        (fun acc2 j =>
          if i < j then
            if templatePriorityScore (acc2.getD j default) >
               templatePriorityScore (acc2.getD i default) then
              listSwap acc2 i j
            else acc2
          else acc2)
        acc)
    ts

/-- Stand-in for Go's RFC3339 time rendering in the header.  Only reached
when some entry has a non-zero timestamp; no theorem in this file inspects
the summary text of such an input, so the exact rendering is irrelevant
here (it renders the raw nanosecond count). -/
def rfc3339 (t : Nat) : String := toString t

/-- Embedding of `writeHeader` as a pure string. -/
def writeHeader (tr : TimeRange) (totalLines totalTemplates redactedCount : Nat) : String :=
  "=== Log Analysis Summary ===\n\n" ++
  (if tr.start ≠ 0 then
    "Time Range: " ++ rfc3339 tr.start ++ " to " ++ rfc3339 tr.endT ++ "\n"
   else "") ++
  "Total Lines: " ++ toString totalLines ++ "\n" ++
  "Unique Patterns: " ++ toString totalTemplates ++ "\n" ++
  (if redactedCount > 0 then
    "Sensitive Values Redacted: " ++ toString redactedCount ++ "\n"
   else "") ++
  "\n"

/-- Embedding of the example truncation in `formatTemplate`: byte slicing
`ex[:117] + "..."` when `len(ex) > 120`.  All examples measured in this file
are ASCII, where byte and character indices coincide. -/
def truncExample (ex : String) : String :=
  if goLen ex > 120 then String.mk (ex.data.take 117) ++ "..." else ex

/-- Embedding of `formatTemplate`. -/
def formatTemplate (t : TemplateSummary) : String :=
  "[" ++ levelString t.level ++ "] " ++ t.pattern ++ " (" ++ toString t.count ++
    " occurrences)\n" ++
  (if t.examples.isEmpty then ""
   else "  Examples:\n" ++
     String.join (t.examples.map (fun ex => "    - " ++ truncExample ex ++ "\n")))

/-- State threaded through `writeTemplates`: the string builder, the running
token tally, and the templates included so far. -/
structure WriteState where
  sb : String
  currentTokens : Int
  included : List TemplateSummary
deriving Repr, DecidableEq

/-- Embedding of one section's emission loop in `writeTemplates`: estimate
each template's rendered size and stop (Go `break`) at the first template
that would push the tally past the available budget. -/
def sectionLoop (availableTokens : Int) : WriteState → List TemplateSummary → WriteState
  | st, [] => st
  | st, t :: rest =>
    let templateStr := formatTemplate t
    let templateTokens := estimateTokens templateStr
    if st.currentTokens + templateTokens > availableTokens then st
    else
      sectionLoop availableTokens
        ⟨st.sb ++ templateStr, st.currentTokens + templateTokens, st.included ++ [t]⟩ rest

/-- One section block of `writeTemplates` (the Go code repeats this block
verbatim for errors, warnings, and others): skipped when the section's list
is empty, or - for the warning and info sections (`checkBudget = true`) -
when the running tally has already reached the available budget; otherwise
the section header is written, the loop emits templates, and a final
newline is appended. -/
def writeSection (availableTokens : Int) (checkBudget : Bool) (header : String)
    (lst : List TemplateSummary) (st : WriteState) : WriteState :=
  if lst.isEmpty || (checkBudget && !(st.currentTokens < availableTokens)) then st
  else
    let st1 := sectionLoop availableTokens
      ⟨st.sb ++ header, st.currentTokens, st.included⟩ lst
    ⟨st1.sb ++ "\n", st1.currentTokens, st1.included⟩

/-- Embedding of `writeTemplates`.  `sb0` is the builder content on entry
(the header); the initial tally is its estimate; 200 tokens are reserved.
The single-pass switch partition into errors / warnings / others is
order-preserving, hence the three filters.  The error section carries no
budget precondition; warnings and others require the tally to still be
strictly below the budget. -/
def writeTemplates (sb0 : String) (templates : List TemplateSummary) (tokenLimit : Int) :
    WriteState :=
  let availableTokens := tokenLimit - 200
  let errors := templates.filter (fun t => t.level == LevelFatal || t.level == LevelError)
  let warnings := templates.filter (fun t => t.level == LevelWarn)
  let others := templates.filter
    (fun t => !(t.level == LevelFatal || t.level == LevelError || t.level == LevelWarn))
  let st : WriteState := ⟨sb0, estimateTokens sb0, []⟩
  let st := writeSection availableTokens false "=== Error Summary ===\n" errors st
  let st := writeSection availableTokens true "=== Warning Summary ===\n" warnings st
  writeSection availableTokens true "=== Top Info Patterns ===\n" others st

/-- Embedding of `writeFooter`'s string.  In Go the footer is written before
`output.TokenCount` is assigned, so the printed count is the zero value; the
caller below passes 0 accordingly. -/
def writeFooter (tokenCount tokenLimit : Int) : String :=
  "Token Count: ~" ++ toString tokenCount ++ " / " ++ toString tokenLimit ++ "\n"

/-- Embedding of `buildOutput`: header, templates section under the budget,
footer (printed with token count 0, see `writeFooter`), then the final
token count estimated over the whole summary. -/
def buildOutput (entries : List LogEntry) (templates : List TemplateSummary)
    (tr : TimeRange) (redactedCount : Nat) (tokenLimit : Int) : CompressedOutput :=
  let header := writeHeader tr entries.length templates.length redactedCount
  let wt := writeTemplates header templates tokenLimit
  let summary := wt.sb ++ writeFooter 0 tokenLimit
  { summary := summary,
    timeRange := tr,
    totalLines := entries.length,
    totalTemplates := templates.length,
    templates := wt.included,
    redactedCount := redactedCount,
    tokenCount := estimateTokens summary,
    tokenLimit := tokenLimit }

/-- Embedding of `Compressor.Compress` for a compressor built with a
positive token limit (`NewCompressor` replaces non-positive limits with the
default 8000 before this point).  On an empty entry list the Go code
returns the sentinel output and leaves `RedactedCount` at its zero value. -/
def compress (tokenLimit : Int) (entries : List LogEntry)
    (templates : List Template) (redactedCount : Nat) : CompressedOutput :=
  if entries.isEmpty then
    { summary := "No log entries to analyze.",
      timeRange := ⟨0, 0⟩,
      totalLines := 0,
      totalTemplates := 0,
      templates := [],
      redactedCount := 0,
      tokenCount := 0,
      tokenLimit := tokenLimit }
  else
    let tr := calculateTimeRange entries
    let summaries := createTemplateSummaries entries templates
    let prioritized := prioritizeTemplates summaries
    buildOutput entries prioritized tr redactedCount tokenLimit

/-! ## Drain extractor (internal/preprocess/drain.go)

The extractor is modelled with the default configuration produced by
`NewDrainExtractor` with non-positive arguments: depth 4, maxChildren 100,
simThreshold 0.5.  The float comparison `similarity >= 0.5` with
`similarity = float64(matches)/float64(maxLen)` is modelled exactly by the
integer comparison `maxLen <= 2 * matches`, which coincides with the float
comparison for all list lengths below 2^52. -/

def drainDepth : Nat := 4

def drainMaxChildren : Nat := 100

/-- Hex digit test used by `isVariableToken`'s character classes. -/
def isHexDigitChar (c : Char) : Bool :=
  c.isDigit || (('a' ≤ c && c ≤ 'f') || ('A' ≤ c && c ≤ 'F'))

/-- Body of the number regex `\d+(\.\d+)?` (anchored on both sides). -/
def numBody (l : List Char) : Bool :=
  let p := l.span Char.isDigit
  !p.1.isEmpty &&
    (match p.2 with
     | [] => true
     | '.' :: fs => !fs.isEmpty && fs.all Char.isDigit
     | _ => false)

/-- Embedding of the regex `^-?\d+(\.\d+)?$` from `isVariableToken`. -/
def isNumToken (s : String) : Bool :=
  match s.data with
  | '-' :: rest => numBody rest
  | l => numBody l

/-- Embedding of the regex `^0[xX][0-9a-fA-F]+$`. -/
def isHexToken (s : String) : Bool :=
  match s.data with
  | '0' :: x :: rest => (x == 'x' || x == 'X') && !rest.isEmpty && rest.all isHexDigitChar
  | _ => false

/-- Split a character list on a separator, keeping empty segments (the exact
segments between separators, as a regex over groups sees them). -/
def splitOnCharAux (sep : Char) : List Char → List Char → List (List Char)
  | [], acc => [acc.reverse]
  | c :: cs, acc =>
    if c == sep then acc.reverse :: splitOnCharAux sep cs []
    else splitOnCharAux sep cs (c :: acc)

/-- Embedding of the regex `^\d{1,3}\.\d{1,3}\.\d{1,3}\.\d{1,3}$`. -/
def isIPToken (s : String) : Bool :=
  let gs := splitOnCharAux '.' s.data []
  gs.length == 4 && gs.all (fun g => !g.isEmpty && g.length ≤ 3 && g.all Char.isDigit)

/-- Embedding of the UUID regex (8-4-4-4-12 hex groups). -/
def isUUIDToken (s : String) : Bool :=
  match splitOnCharAux '-' s.data [] with
  | [a, b, c, d, e] =>
    a.length == 8 && b.length == 4 && c.length == 4 && d.length == 4 && e.length == 12 &&
    a.all isHexDigitChar && b.all isHexDigitChar && c.all isHexDigitChar &&
    d.all isHexDigitChar && e.all isHexDigitChar
  | _ => false

/-- Match a shape prefix against characters: in the shape, the character d
stands for a digit and anything else for itself. -/
def matchShape : List Char → List Char → Bool
  | [], _ => true
  | _ :: _, [] => false
  | sc :: ss, c :: cs => (if sc == 'd' then c.isDigit else c == sc) && matchShape ss cs

/-- Embedding of the unanchored-suffix timestamp regex
`^\d{4}-\d{2}-\d{2}T\d{2}:\d{2}:\d{2}` (a prefix match). -/
def isTSPrefixToken (s : String) : Bool :=
  matchShape "dddd-dd-ddTdd:dd:dd".data s.data

/-- Embedding of `strings.HasPrefix(token, "/") && len(token) > 20`. -/
def isPathToken (s : String) : Bool :=
  (match s.data with
   | '/' :: _ => true
   | _ => false) && goLen s > 20

/-- Embedding of `isVariableToken`: the checks in the Go order. -/
def isVariableToken (s : String) : Bool :=
  isNumToken s || isHexToken s || isIPToken s || isUUIDToken s || isTSPrefixToken s ||
    isPathToken s

/-- Embedding of `ParseTreeNode`.  The Go struct's `nodeType` and `token`
fields are never read by any code path and are omitted; `children` is a
map modelled as an association list. -/
inductive ParseTreeNode where
  | node (children : List (String × ParseTreeNode)) (templateIDs : List String)

/-- Children of a parse tree node. -/
def ParseTreeNode.children : ParseTreeNode → List (String × ParseTreeNode)
  | node cs _ => cs

/-- Template IDs stored at a parse tree node. -/
def ParseTreeNode.templateIDs : ParseTreeNode → List String
  | node _ ids => ids

/-- Map read `children[token]`. -/
def lookupChild (cs : List (String × ParseTreeNode)) (k : String) : Option ParseTreeNode :=
  match cs.find? (fun kv => kv.1 == k) with
  | some kv => some kv.2
  | none => none

/-- Map write `children[token] = v` (replace or insert). -/
def setChild (cs : List (String × ParseTreeNode)) (k : String) (v : ParseTreeNode) :
    List (String × ParseTreeNode) :=
  if cs.any (fun kv => kv.1 == k) then
    cs.map (fun kv => if kv.1 == k then (k, v) else kv)
  else cs ++ [(k, v)]

/-- The templates map `map[string]*Template`, insertion-ordered. -/
abbrev TMap := List (String × Template)

/-- Map read `d.templates[id]`. -/
def tmapGet (m : TMap) (k : String) : Option Template :=
  match m.find? (fun kv => kv.1 == k) with
  | some kv => some kv.2
  | none => none

/-- Map write `d.templates[id] = t` (replace or insert). -/
def tmapSet (m : TMap) (k : String) (t : Template) : TMap :=
  if m.any (fun kv => kv.1 == k) then
    m.map (fun kv => if kv.1 == k then (k, t) else kv)
  else m ++ [(k, t)]

/-- In-place update of the template stored under `k`, if present (Go
mutates the template through its pointer). -/
def tmapUpdate (m : TMap) (k : String) (f : Template → Template) : TMap :=
  m.map (fun kv => if kv.1 == k then (kv.1, f kv.2) else kv)

/-- Positional matches of `calculateSimilarity`: over the common prefix,
a position matches when either side is the wildcard or the tokens agree. -/
def simMatches (t1 t2 : List String) : Nat :=
  (t1.zip t2).countP (fun p => p.1 == "<*>" || p.2 == "<*>" || p.1 == p.2)

/-- Embedding of `calculateSimilarity(t1, t2) >= 0.5` (see the section
comment for the exactness of the integer comparison).  The Go special
cases: two empty lists are fully similar, one empty list is dissimilar. -/
def simAtLeastHalf (t1 t2 : List String) : Bool :=
  if t1.isEmpty && t2.isEmpty then true
  else if t1.isEmpty || t2.isEmpty then false
  else decide (max t1.length t2.length ≤ 2 * simMatches t1 t2)

/-- Embedding of `mergeTemplates`: positions where the sides differ (or
either is past its end, or the existing side is already a wildcard) become
wildcards. -/
def mergeTemplates (existingTokens newTokens : List String) : List String :=
  (List.range (max existingTokens.length newTokens.length)).map
    (fun i =>
      if existingTokens.length ≤ i ∨ newTokens.length ≤ i then "<*>"
      else if existingTokens.getD i "" = "<*>" ∨ existingTokens.getD i "" ≠ newTokens.getD i ""
        then "<*>"
      else existingTokens.getD i "")

/-- Embedding of `createTemplateTokens`: variable tokens become wildcards. -/
def createTemplateTokens (tokens : List String) : List String :=
  tokens.map (fun tok => if isVariableToken tok then "<*>" else tok)

/-- Embedding of `tokensToPattern` (`strings.Join(tokens, " ")`). -/
def tokensToPattern (tokens : List String) : String :=
  match tokens with
  | [] => ""
  | t :: ts => ts.foldl (fun acc x => acc ++ " " ++ x) t

/-- The leaf-level similarity scan of `findOrCreateTemplate`: the first
stored ID (in slice order) whose template exists and is similar enough. -/
def findSimilarTemplate (templates : TMap) (tokens : List String) :
    List String → Option (String × Template)
  | [] => none
  | id :: rest =>
    match tmapGet templates id with
    | some tmpl =>
      if simAtLeastHalf tokens tmpl.tokens then some (id, tmpl)
      else findSimilarTemplate templates tokens rest
    | none => findSimilarTemplate templates tokens rest

/-- What `findOrCreateTemplate` does once it has reached a leaf: either
merge into the first similar template (mutating its tokens and pattern) and
return its ID, or create a fresh template under the ID
`T_<len(templates)+1>` and append that ID to the leaf.  Returns the new
leaf ID list together with the returned ID and updated templates map. -/
def leafAction (templates : TMap) (tokens : List String) (ids : List String) :
    List String × (String × TMap) :=
  match findSimilarTemplate templates tokens ids with
  | some (id, tmpl) =>
    let newTokens := mergeTemplates tmpl.tokens tokens
    (ids, (id, tmapSet templates id
      { tmpl with tokens := newTokens, pattern := tokensToPattern newTokens }))
  | none =>
    let id := "T_" ++ toString (templates.length + 1)
    let tt := createTemplateTokens tokens
    (ids ++ [id], (id, tmapSet templates id ⟨id, tokensToPattern tt, tt, 0, []⟩))

/-- The tree walk of `findOrCreateTemplate`: follow (creating as needed)
one child per key; when a key is absent and the node already has
`maxChildren` children, fall back to the wildcard child.  At the leaf,
apply the action to the stored template IDs. -/
def insertWalk (act : List String → List String × α) :
    ParseTreeNode → List String → ParseTreeNode × α
  | ParseTreeNode.node cs ids, [] =>
    let r := act ids
    (ParseTreeNode.node cs r.1, r.2)
  | ParseTreeNode.node cs ids, k :: rest =>
    let key := if (lookupChild cs k).isSome then k
               else if drainMaxChildren ≤ cs.length then "<*>" else k
    let child := match lookupChild cs key with
                 | some c => c
                 | none => ParseTreeNode.node [] []
    let r := insertWalk act child rest
    (ParseTreeNode.node (setChild cs key r.1) ids, r.2)

/-- The keys walked by `findOrCreateTemplate` for a token list: the length
key `len_<n>` at level 1, then the first `depth - 1` tokens with variable
tokens replaced by the wildcard (the per-node maxChildren fallback is
applied inside `insertWalk`). -/
def walkKeys (tokens : List String) : List String :=
  ("len_" ++ toString tokens.length) ::
    (tokens.take (drainDepth - 1)).map (fun tok => if isVariableToken tok then "<*>" else tok)

/-- Embedding of the extractor state: the parse tree root and the templates
map (depth, simThreshold and maxChildren are the fixed defaults). -/
structure DrainState where
  root : ParseTreeNode
  templates : TMap

/-- Embedding of `NewDrainExtractor` with default configuration. -/
def newDrain : DrainState := ⟨ParseTreeNode.node [] [], []⟩

/-- Embedding of `findOrCreateTemplate`. -/
def findOrCreateTemplate (st : DrainState) (tokens : List String) : String × DrainState :=
  let r := insertWalk (leafAction st.templates tokens) st.root (walkKeys tokens)
  (r.2.1, ⟨r.1, r.2.2⟩)

/-- Embedding of `Extract`: tokenize, return the empty ID on an empty token
list, otherwise find or create the template, then bump its count and record
up to three example messages. -/
def extract (st : DrainState) (message : String) : String × DrainState :=
  let tokens := goFields message
  if tokens.isEmpty then ("", st)
  else
    let r := findOrCreateTemplate st tokens
    (r.1,
     { r.2 with
        templates := tmapUpdate r.2.templates r.1
          (fun t =>
            { t with
                count := t.count + 1,
                examples :=
                  if t.examples.length < 3 then t.examples ++ [message] else t.examples }) })

/-- Feed a sequence of messages to one extractor, collecting the returned
template IDs. -/
def extractAll (st : DrainState) (messages : List String) : List String × DrainState :=
  messages.foldl (fun acc m => let r := extract acc.2 m; (acc.1 ++ [r.1], r.2)) ([], st)

/-- Embedding of `Reset`: fresh root, empty templates map. -/
def drainReset (_st : DrainState) : DrainState := ⟨ParseTreeNode.node [] [], []⟩

/-- Embedding of `GetTemplateByID`. -/
def getTemplateByID (st : DrainState) (id : String) : Option Template :=
  tmapGet st.templates id

/-! ## Prompt builder (internal/prompt)

`PromptType` is a Go string type; `Build` validates `opts.Summary`, then
dispatches on the type.  Errors (`missingField` wrapping
`ErrMissingField`) are modelled as the formatted error string.  The five
system prompt constants are reproduced byte-for-byte from the source,
including the mojibake byte sequence in `extractInstruction`. -/

abbrev PromptType := String

def TypeSummarize : PromptType := "summarize"

def TypeRootCause : PromptType := "root_cause"

def TypeAnomalyDetection : PromptType := "anomaly_detection"

def TypeNaturalLanguageQuery : PromptType := "natural_language_query"

def TypeStructuredOutput : PromptType := "structured_output"

/-- One chat message (`llm.Message`). -/
structure Message where
  role : String
  content : String
deriving Repr, DecidableEq

/-- `BuildOptions`, all fields. -/
structure BuildOptions where
  summary : String
  question : String
  files : List String
  pattern : String
  level : String
  groupBy : String
  window : String
  timeRange : String
  firstPassResponse : String
deriving Repr, DecidableEq

/-- `strings.Join`. -/
def strJoin (sep : String) : List String → String
  | [] => ""
  | [x] => x
  | x :: rest => x ++ sep ++ strJoin sep rest

def summarizeSystem : String :=
  "You are an expert log analysis assistant. Your role is to analyze log data and provide clear, actionable insights.\n\nGuidelines:\n1. Only reference information present in the provided log summary\n2. Distinguish observations (\"the logs show...\") from inferences (\"this suggests...\")\n3. Never invent or hallucinate log entries\n4. Focus on patterns, root causes, and actionable recommendations\n5. Use specific timestamps and error messages when available\n6. Structure your response clearly with sections\n\nYour analysis should include:\n- Summary: High-level overview of what the logs show\n- Key Findings: Most important patterns or issues\n- Timeline: When issues occurred (if timestamps available)\n- Root Cause: Why issues happened (evidence-based)\n- Recommendations: What to investigate or fix next"

def rootCauseSystem : String :=
  "You are a senior site reliability engineer performing root cause analysis on log data.\n\nYour task is to identify the underlying cause of failures or degradations in the provided log summary.\n\nGuidelines:\n1. Work backwards from symptoms to causes — follow the evidence chain\n2. Identify the earliest signal that something went wrong (the trigger event)\n3. Distinguish between root causes (why it happened) and contributing factors (what made it worse)\n4. Never speculate beyond what the data supports — flag uncertainty explicitly\n5. Cite specific log patterns, error messages, and timestamps as evidence\n6. Consider cascading failures: one root cause often triggers secondary errors\n\nYour analysis must include:\n- Trigger Event: The first observable anomaly with timestamp (if available)\n- Root Cause: The fundamental reason for the failure, with evidence\n- Contributing Factors: Secondary issues that amplified the impact\n- Impact: What services or operations were affected and for how long\n- Remediation: Concrete steps to prevent recurrence"

def anomalyDetectionSystem : String :=
  "You are a log anomaly detection specialist. Your role is to identify unusual patterns in log data that may indicate problems, attacks, or system degradation.\n\nGuidelines:\n1. Look for deviations from what a healthy system would produce\n2. Consider frequency anomalies (sudden spikes or drops in message rates)\n3. Identify new error classes that have not appeared before\n4. Detect unusual sequences (e.g. auth failures followed by access events)\n5. Flag timing anomalies (operations that took significantly longer than expected)\n6. Classify each anomaly by severity: LOW / MEDIUM / HIGH / CRITICAL\n7. Only report genuine anomalies — avoid flagging expected operational noise\n\nStructure your response as:\n- Anomaly Summary: Count and highest severity found\n- Detected Anomalies: For each anomaly — description, evidence, severity, and recommended action\n- Normal Patterns: Brief note on what appears to be routine activity (so the reader has contrast)"

def naturalLanguageQuerySystem : String :=
  "You are a helpful log analysis assistant. Your role is to answer questions about log data based on the provided context.\n\nGuidelines:\n- Focus on answering the user\x27s specific question directly and accurately\n- Use only information present in the provided log summary — never hallucinate\n- Reference specific timestamps, error messages, or patterns when they support your answer\n- Distinguish observations (\"the logs show...\") from inferences (\"this suggests...\")\n- Match the level of detail to the question: concise for simple questions, thorough for complex ones\n- If the log data does not contain enough information to answer the question, say so clearly"

def structuredOutputSystem : String :=
  "You are an expert log analysis assistant that produces machine-readable output.\n\nYour analysis must be returned as a single valid JSON object with the following schema:\n\n\x7b\n  \"summary\": \"string — one paragraph overview\",\n  \"severity\": \"string — one of: info, warning, error, critical\",\n  \"key_findings\": [\"string\", ...],\n  \"timeline\": [\n    \x7b\"timestamp\": \"string or null\", \"event\": \"string\"\x7d\n  ],\n  \"root_cause\": \"string or null — evidence-based, null if undetermined\",\n  \"anomalies\": [\n    \x7b\"description\": \"string\", \"severity\": \"string\", \"evidence\": \"string\"\x7d\n  ],\n  \"recommendations\": [\"string\", ...]\n\x7d\n\nRules:\n1. Output ONLY the JSON object — no markdown fences, no prose before or after\n2. All string fields must be valid JSON strings (escape special characters)\n3. Use null for fields where data is insufficient, never omit them\n4. Arrays may be empty ([]) but must be present\n5. Never hallucinate log entries not present in the provided data"

/-- The second-pass extraction instruction (the source file contains the
mojibake bytes reproduced here). -/
def extractInstruction : String :=
  "Now extract your analysis into the JSON schema specified in the system prompt. Output ONLY the JSON object â€” no markdown, no explanation."

/-- `systemPrompt`'s switch, defaulting to `summarizeSystem`. -/
def systemPrompt (pt : PromptType) : String :=
  if pt = TypeSummarize then summarizeSystem
  else if pt = TypeRootCause then rootCauseSystem
  else if pt = TypeAnomalyDetection then anomalyDetectionSystem
  else if pt = TypeNaturalLanguageQuery then naturalLanguageQuerySystem
  else if pt = TypeStructuredOutput then structuredOutputSystem
  else summarizeSystem

/-- `missingField` formats `ErrMissingField` with the field name. -/
def missingField (field : String) : String :=
  "prompt: missing required field: " ++ field

/-- `appendLogContext`: optional time range, optional file list, then the
summary. -/
def appendLogContext (sb : String) (opts : BuildOptions) : String :=
  let sb := if opts.timeRange ≠ "" then sb ++ "Time range: " ++ opts.timeRange ++ "\n\n"
    else sb
  let sb := match opts.files with
    | [] => sb
    | [f] => sb ++ "Source file: " ++ f ++ "\n\n"
    | fs => sb ++ "Source files (" ++ toString fs.length ++ "): " ++
        strJoin ", " fs ++ "\n\n"
  sb ++ opts.summary ++ "\n\n"

/-- `appendFilterNotes`: notes about pre-applied filters, joined by `; `. -/
def appendFilterNotes (sb : String) (opts : BuildOptions) : String :=
  let notes :=
    (if opts.pattern ≠ "" then ["Filtered by pattern: " ++ opts.pattern] else []) ++
    (if opts.level ≠ "" then ["Filtered by level: " ++ opts.level] else []) ++
    (if opts.groupBy ≠ "" then ["Analysis grouped by: " ++ opts.groupBy] else []) ++
    (if opts.window ≠ "" then ["Time window applied: " ++ opts.window] else [])
  if notes.length > 0 then sb ++ "Note: " ++ strJoin "; " notes ++ ".\n" else sb

/-- `buildStandardUserMessage`: per-type task instruction, log context,
filter notes. -/
def buildStandardUserMessage (pt : PromptType) (opts : BuildOptions) : String :=
  let sb := if pt = TypeRootCause then
      "Perform a root cause analysis on the following log summary:\n\n"
    else if pt = TypeAnomalyDetection then
      "Identify anomalies in the following log summary:\n\n"
    else "Analyze the following log summary:\n\n"
  appendFilterNotes (appendLogContext sb opts) opts

/-- `buildStandard`: system + user. -/
def buildStandard (pt : PromptType) (opts : BuildOptions) : Except String (List Message) :=
  Except.ok [Message.mk "system" (systemPrompt pt),
    Message.mk "user" (buildStandardUserMessage pt opts)]

/-- `buildNaturalLanguageQuery`: requires `Question`. -/
def buildNaturalLanguageQuery (opts : BuildOptions) : Except String (List Message) :=
  if opts.question = "" then Except.error (missingField "Question")
  else
    let sb := "Question: " ++ opts.question ++ "\n\n" ++ "Log Summary:\n" ++ opts.summary
    let sb := appendFilterNotes sb opts
    Except.ok [Message.mk "system" (systemPrompt TypeNaturalLanguageQuery),
      Message.mk "user" sb]

/-- `buildStructuredOutput`: two-pass pattern keyed on `FirstPassResponse`. -/
def buildStructuredOutput (opts : BuildOptions) : Except String (List Message) :=
  let firstUser := appendFilterNotes
    (appendLogContext "Analyze the following log summary:\n\n" opts) opts
  if opts.firstPassResponse = "" then
    Except.ok [Message.mk "system" (systemPrompt TypeStructuredOutput),
      Message.mk "user" firstUser]
  else
    Except.ok [Message.mk "system" (systemPrompt TypeStructuredOutput),
      Message.mk "user" firstUser,
      Message.mk "assistant" opts.firstPassResponse,
      Message.mk "user" extractInstruction]

/-- Embedding of `Build`. -/
def buildMessages (pt : PromptType) (opts : BuildOptions) : Except String (List Message) :=
  if opts.summary = "" then Except.error (missingField "Summary")
  else if pt = TypeNaturalLanguageQuery then buildNaturalLanguageQuery opts
  else if pt = TypeStructuredOutput then buildStructuredOutput opts
  else buildStandard pt opts

/-! ## Analyzer time windows (internal/analyzer/analyzer.go)

`AnalyzeByWindow` works on `time.Time` values; a timestamp is modelled as
a nanosecond count (`Nat`) with `0` the zero value (`IsZero`), and the
window is a `time.Duration` in nanoseconds.  The float display fields
(`ErrorPercent`, `ChangePercent`) are not modelled; no claim concerns
them.  For `window ≤ 0` the Go loop never terminates (`Truncate` returns
its argument unchanged and `Add` does not advance `current`), so the
embedding returns `[]` in that untranslatable case; every theorem below
assumes a positive window, as the claim does. -/

/-- `t.Truncate(d)`: round down to a multiple of `d` (identity for
non-positive `d`). -/
def timeTruncate (t W : Nat) : Nat := if W = 0 then t else t - t % W

/-- One step of the `minTime`/`maxTime` fold: entries with a zero
timestamp are skipped; otherwise `minTime` is lowered when unset or when
`e.Timestamp.Before(minTime)`, and `maxTime` raised when unset or when
`e.Timestamp.After(maxTime)`. -/
def minMaxStep (mm : Nat × Nat) (e : LogEntry) : Nat × Nat :=
  if e.timestamp ≠ 0 then
    (if mm.1 = 0 ∨ e.timestamp < mm.1 then e.timestamp else mm.1,
     if mm.2 = 0 ∨ mm.2 < e.timestamp then e.timestamp else mm.2)
  else mm

/-- The `(minTime, maxTime)` pair computed by `AnalyzeByWindow`. -/
def minMaxNonzero (entries : List LogEntry) : Nat × Nat :=
  entries.foldl minMaxStep (0, 0)

/-- One window's statistics (the two float percentage fields omitted). -/
structure TimeWindowStats where
  start : Nat
  endT : Nat
  count : Nat
  errorCount : Nat
  levelCounts : List (LogLevel × Nat)
deriving Repr, DecidableEq

/-- `m[k]++` on the per-level count map. -/
def alistIncr : List (LogLevel × Nat) → LogLevel → List (LogLevel × Nat)
  | [], k => [(k, 1)]
  | (k2, v) :: rest, k =>
    if k2 = k then (k2, v + 1) :: rest else (k2, v) :: alistIncr rest k

/-- The `for current := windowStart; current.Before(maxTime) ||
current.Equal(maxTime); current = current.Add(window)` loop, yielding the
window start times.  `fuel` only bounds the recursion; the call site
passes enough for the loop to run to completion. -/
def windowStartsAux : Nat → Nat → Nat → Nat → List Nat
  | 0, _, _, _ => []
  | fuel + 1, W, maxT, current =>
    if current ≤ maxT then current :: windowStartsAux fuel W maxT (current + W)
    else []

/-- Bump one window's counters for an entry: `Count++`,
`LevelCounts[e.Level]++`, and `ErrorCount++` when `e.Level >= LevelError`
(note `Fatal` and `Unknown` also satisfy that comparison). -/
def bumpWindow (w : TimeWindowStats) (e : LogEntry) : TimeWindowStats :=
  { w with
    count := w.count + 1,
    errorCount := if LevelError ≤ e.level then w.errorCount + 1 else w.errorCount,
    levelCounts := alistIncr w.levelCounts e.level }

/-- The entry-assignment loop body: skip zero timestamps, compute
`windowIdx = (ts - windowStart) / window`, and bump that window when the
index is in range. -/
def assignEntry (windowStart W : Nat) (ws : List TimeWindowStats) (e : LogEntry) :
    List TimeWindowStats :=
  if e.timestamp = 0 then ws
  else
    let idx := (e.timestamp - windowStart) / W
    if h : idx < ws.length then ws.set idx (bumpWindow (ws.get ⟨idx, h⟩) e)
    else ws

/-- Embedding of `AnalyzeByWindow`. -/
def analyzeByWindow (entries : List LogEntry) (W : Nat) : List TimeWindowStats :=
  if entries = [] then []
  else
    let mm := minMaxNonzero entries
    if mm.1 = 0 ∨ mm.2 = 0 then []
    else if W = 0 then []
    else
      let windowStart := timeTruncate mm.1 W
      let fuel := (mm.2 - windowStart) / W + 1
      let starts := windowStartsAux fuel W mm.2 windowStart
      let windows := starts.map (fun s => TimeWindowStats.mk s (s + W) 0 0 [])
      entries.foldl (assignEntry windowStart W) windows

/-! ## Streaming parser scanner discipline (internal/parser/parser.go)

`ParseStream` drives a `bufio.Scanner` over the input with
`scanner.Buffer(make([]byte, 1<<20), 1<<20)`, so one line must be
determined within a 1 MiB window: a newline-terminated line succeeds only
when the newline lies strictly inside the first 1048576 buffered bytes,
and an unterminated final line only when it is strictly shorter than the
buffer (the reader reports EOF on a separate Read call, as both
`strings.Reader` and `os.File` do, so a completely full buffer fails
before EOF is seen).  Otherwise the scanner stops with `bufio.ErrTooLong`
and `ParseStream` returns it via `scanner.Err()`; there is no structured
parse error and no offset.  Input is a byte list; the entries passed to
the per-line callback are modelled as the (line bytes, physical line
number) pairs handed to `parseLine`, whose field extraction no claim
consults. -/

/-- The scanner ceiling: `maxScanTokenSize = 1024 * 1024`. -/
def maxScanTokenSize : Nat := 1048576

/-- Position of the first newline among the first `lim` buffered bytes. -/
def findNLAux : List Nat → Nat → Option Nat
  | [], _ => none
  | _ :: _, 0 => none
  | b :: rest, lim + 1 =>
    if b == 10 then some 0 else (findNLAux rest lim).map (fun i => i + 1)

/-- Position of the first newline inside the buffer window. -/
def findNL (l : List Nat) : Option Nat :=
  findNLAux l maxScanTokenSize

/-- `bufio.ScanLines` drops one trailing carriage return from a token. -/
def dropCR (l : List Nat) : List Nat :=
  if l.getLast? == some 13 then l.dropLast else l

/-- The scanner's terminal error (`bufio.ErrTooLong`). -/
inductive ScanError where
  | tooLong
deriving Repr, DecidableEq

/-- One scanner step per token; `fuel` only ensures structural recursion
and is always at least the input length, which each step strictly
decreases. -/
def scanAux : Nat → List Nat → List (List Nat) × Option ScanError
  | _, [] => ([], none)
  | 0, _ => ([], none)
  | fuel + 1, l =>
    match findNL l with
    | some i =>
      let r := scanAux fuel (l.drop (i + 1))
      (dropCR (l.take i) :: r.1, r.2)
    | none =>
      if maxScanTokenSize ≤ l.length then ([], some ScanError.tooLong)
      else ([dropCR l], none)

/-- All tokens the scanner yields, with its final error state. -/
def scanLines (input : List Nat) : List (List Nat) × Option ScanError :=
  scanAux input.length input

/-- Go `strings.TrimSpace(line) == ""` for the byte lines concerned: every
byte is ASCII whitespace. -/
def isBlankLine (l : List Nat) : Bool :=
  l.all (fun b => b == 32 || b == 9 || b == 10 || b == 13 || b == 11 || b == 12)

/-- `lineNum++` before each callback: pair each token with its physical
line number. -/
def numberLines : List (List Nat) → Nat → List (List Nat × Nat)
  | [], _ => []
  | l :: rest, n => (l, n) :: numberLines rest (n + 1)

/-- Embedding of `ParseStream`: scan, count physical line numbers from 1,
skip blank lines, emit the rest, and return the scanner's error.  Entries
emitted before a scanner failure are delivered; the error comes last. -/
def parseStreamTokens (input : List Nat) : List (List Nat × Nat) × Option ScanError :=
  let r := scanLines input
  ((numberLines r.1 1).filter (fun p => !(isBlankLine p.1)), r.2)

/-! ## SHA-256 and the redactor (internal/preprocess/redact.go)

`hashValue` takes the first two bytes (four hex characters) of the SHA-256
digest of the matched value.  SHA-256 is implemented here over byte lists
(32-bit words as Nat mod 2^32, FIPS 180-4). -/

/-- Truncation to a 32-bit word. -/
def w32 (x : Nat) : Nat := x % 4294967296

/-- 32-bit right rotation. -/
def rotr32 (x n : Nat) : Nat := w32 ((x >>> n) ||| (x <<< (32 - n)))

/-- The SHA-256 round constants. -/
def shaK : List Nat :=
  [1116352408, 1899447441, 3049323471, 3921009573, 961987163,
   1508970993, 2453635748, 2870763221, 3624381080, 310598401,
   607225278, 1426881987, 1925078388, 2162078206, 2614888103,
   3248222580, 3835390401, 4022224774, 264347078, 604807628,
   770255983, 1249150122, 1555081692, 1996064986, 2554220882,
   2821834349, 2952996808, 3210313671, 3336571891, 3584528711,
   113926993, 338241895, 666307205, 773529912, 1294757372,
   1396182291, 1695183700, 1986661051, 2177026350, 2456956037,
   2730485921, 2820302411, 3259730800, 3345764771, 3516065817,
   3600352804, 4094571909, 275423344, 430227734, 506948616,
   659060556, 883997877, 958139571, 1322822218, 1537002063,
   1747873779, 1955562222, 2024104815, 2227730452, 2361852424,
   2428436474, 2756734187, 3204031479, 3329325298]

/-- The SHA-256 initial hash state. -/
def shaH0 : List Nat :=
  [1779033703, 3144134277, 1013904242, 2773480762,
   1359893119, 2600822924, 528734635, 1541459225]

/-- Big-endian packing of bytes into 32-bit words. -/
def bytesToWords : List Nat → List Nat
  | b0 :: b1 :: b2 :: b3 :: rest =>
    (((b0 * 256 + b1) * 256 + b2) * 256 + b3) :: bytesToWords rest
  | _ => []

/-- SHA-256 message-schedule sigma functions. -/
def smallSigma0 (x : Nat) : Nat := rotr32 x 7 ^^^ rotr32 x 18 ^^^ (x >>> 3)

def smallSigma1 (x : Nat) : Nat := rotr32 x 17 ^^^ rotr32 x 19 ^^^ (x >>> 10)

def bigSigma0 (x : Nat) : Nat := rotr32 x 2 ^^^ rotr32 x 13 ^^^ rotr32 x 22

def bigSigma1 (x : Nat) : Nat := rotr32 x 6 ^^^ rotr32 x 11 ^^^ rotr32 x 25

/-- SHA-256 choice and majority functions (bitwise, within 32 bits). -/
def shaCh (x y z : Nat) : Nat := (x &&& y) ^^^ ((x ^^^ 4294967295) &&& z)

def shaMaj (x y z : Nat) : Nat := (x &&& y) ^^^ (x &&& z) ^^^ (y &&& z)

/-- Extend the 16-word schedule to 64 words (`fuel` = 48 steps). -/
def extendW (w : List Nat) : Nat → List Nat
  | 0 => w
  | fuel + 1 =>
    let i := w.length
    let wi := w32 (smallSigma1 (w.getD (i - 2) 0) + w.getD (i - 7) 0 +
      smallSigma0 (w.getD (i - 15) 0) + w.getD (i - 16) 0)
    extendW (w ++ [wi]) fuel

/-- The 64 compression rounds over the zipped (constant, schedule-word)
list; the state is the eight working variables a..h. -/
def shaRounds : List (Nat × Nat) → List Nat → List Nat
  | [], st => st
  | (k, w) :: rest, st =>
    match st with
    | [a, b, c, d, e, f, g, h] =>
      let t1 := w32 (h + bigSigma1 e + shaCh e f g + k + w)
      let t2 := w32 (bigSigma0 a + shaMaj a b c)
      shaRounds rest [w32 (t1 + t2), a, b, c, w32 (d + t1), e, f, g]
    | _ => st

/-- Process one 64-byte block. -/
def processBlock (h : List Nat) (block : List Nat) : List Nat :=
  let w := extendW (bytesToWords block) 48
  let st := shaRounds (shaK.zip w) h
  (h.zip st).map (fun p => w32 (p.1 + p.2))

/-- Process `n` 64-byte chunks of the padded message. -/
def processChunks (h : List Nat) (l : List Nat) : Nat → List Nat
  | 0 => h
  | n + 1 => processChunks (processBlock h (l.take 64)) (l.drop 64) n

/-- The 8 big-endian bytes of the 64-bit message bit length. -/
def lenBytes8 (v : Nat) : List Nat :=
  [(v >>> 56) % 256, (v >>> 48) % 256, (v >>> 40) % 256, (v >>> 32) % 256,
   (v >>> 24) % 256, (v >>> 16) % 256, (v >>> 8) % 256, v % 256]

/-- SHA-256 padding: the 0x80 byte, zeros to 56 mod 64, then the length. -/
def shaPad (msg : List Nat) : List Nat :=
  msg ++ [128] ++ List.replicate ((119 - msg.length % 64) % 64) 0 ++
    lenBytes8 (msg.length * 8)

/-- The SHA-256 digest of a byte list, as eight 32-bit words. -/
def sha256Words (msg : List Nat) : List Nat :=
  let padded := shaPad msg
  processChunks shaH0 padded (padded.length / 64)

/-- Bytes of a string.  The redactor hashes the UTF-8 bytes of the matched
value; every string matched by the ipv4 pattern is ASCII, where the bytes
are the character codes. -/
def strBytes (s : String) : List Nat := s.data.map Char.toNat

/-- Lower-case hex digit. -/
def hexChar (d : Nat) : Char :=
  if d < 10 then Char.ofNat (48 + d) else Char.ofNat (87 + d)

/-- Two hex characters of a byte. -/
def byteHex (b : Nat) : String := String.mk [hexChar (b / 16), hexChar (b % 16)]

/-- Embedding of `hashValue`: `hex.EncodeToString(h[:2])`, the first two
digest bytes as four hex characters. -/
def hashValue (value : String) : String :=
  let w0 := (sha256Words (strBytes value)).getD 0 0
  byteHex (w0 >>> 24) ++ byteHex ((w0 >>> 16) % 256)

/-- Embedding of the `Redactor` struct for a redactor constructed with the
single pattern list ["ipv4"] (patterns are fixed, so only `enabled` and the
value-to-placeholder map remain). -/
structure Redactor where
  enabled : Bool
  hashMap : List (String × String)

/-- Embedding of `getPlaceholder`: return the cached placeholder, or build
`[TYPE:hash]`, cache it and return it. -/
def getPlaceholder (r : Redactor) (value patternType : String) : String × Redactor :=
  match r.hashMap.find? (fun kv => kv.1 == value) with
  | some kv => (kv.2, r)
  | none =>
    let placeholder := "[" ++ patternType ++ ":" ++ hashValue value ++ "]"
    (placeholder, { r with hashMap := r.hashMap ++ [(value, placeholder)] })

/-- Embedding of one octet alternative of the ipv4 regex:
`25[0-5]|2[0-4][0-9]|[01]?[0-9][0-9]?`, as an exact match of a dot-free
group. -/
def isOctet (g : List Char) : Bool :=
  match g with
  | [a] => a.isDigit
  | [a, b] => a.isDigit && b.isDigit
  | ['2', '5', c] => '0' ≤ c && c ≤ '5'
  | ['2', b, c] => ('0' ≤ b && b ≤ '4') && c.isDigit
  | [a, b, c] => (a == '0' || a == '1') && b.isDigit && c.isDigit
  | _ => false

/-- A string that the ipv4 regex matches in full: four dot-separated
octets (the word boundaries hold trivially at the ends of the string). -/
def ipv4FullMatch (s : String) : Bool :=
  let gs := splitOnCharAux '.' s.data []
  gs.length == 4 && gs.all isOctet

/-- Embedding of `Redact` for a redactor whose single enabled pattern is
ipv4, specialised to texts that are one full match of the pattern: Go's
`ReplaceAllStringFunc` then replaces the entire text with
`getPlaceholder(text, "IPV4")`.  With redaction disabled the text is
returned unchanged. -/
def redactFull (r : Redactor) (text : String) : String × Redactor :=
  if r.enabled then getPlaceholder r text "IPV4" else (text, r)

/-- Well-formedness of a redactor state reachable from `NewRedactor` with
the ipv4 pattern: every cached placeholder is the bracketed hash of its
key. -/
def RedactorWF (r : Redactor) : Prop :=
  ∀ kv ∈ r.hashMap, kv.2 = "[" ++ "IPV4" ++ ":" ++ hashValue kv.1 ++ "]"

/-- Specification helper: the linear tree produced by inserting one path of
keys into an empty parse tree, ending in a leaf holding `ids`. -/
def spine : List String → List String → ParseTreeNode
  | [], ids => ParseTreeNode.node [] ids
  | k :: rest, ids => ParseTreeNode.node [(k, spine rest ids)] []

/-- Specification helper: the canonical ID sequence T_1, ..., T_n produced
by `generateTemplateID` over the life of one extractor. -/
def idKeys (n : Nat) : List String :=
  (List.range n).map (fun i => "T_" ++ toString (i + 1))

/-- Specification helper: decimal value of a digit string, used to prove
that `Nat.repr` is injective. -/
def reprVal (l : List Char) : Nat :=
  l.foldl (fun acc c => acc * 10 + (c.toNat - 48)) 0

/-- Specification helper: the template produced after `k` extractions of the
one message `m` whose token list is `tk` (count `k`, up to three examples). -/
def repeatTemplate (m : String) (tk : List String) (k : Nat) : Template :=
  ⟨"T_1", tokensToPattern (createTemplateTokens tk), createTemplateTokens tk, k,
   List.replicate (min k 3) m⟩

/-- Specification helper: the extractor state after `k` extractions (k > 0)
of the one message `m` with token list `tk`. -/
def repeatState (m : String) (tk : List String) (k : Nat) : DrainState :=
  ⟨spine (walkKeys tk) ["T_1"], [("T_1", repeatTemplate m tk k)]⟩

/-! ## Concrete instances used by the compressor claims -/

/-- An Error-level entry whose message matches `c1template`. -/
def c1entry : LogEntry := ⟨"disk failure", LevelError, 0⟩

/-- A template whose pattern equals the message of `c1entry`. -/
def c1template : Template := ⟨"T_1", "disk failure", ["disk", "failure"], 1, []⟩

/-- Entry for the C2 budget counterexample. -/
def c2entry : LogEntry := ⟨"abcd", LevelError, 0⟩

/-- Template for the C2 budget counterexample; its summary renders to a
31-byte line, so each inclusion is charged 7 tokens while contributing
31/4 = 7.75 tokens of real length. -/
def c2template : Template := ⟨"t", "abcd", ["abcd"], 1, []⟩

/-- The summary produced for `c2template` from `c2entry`. -/
def c2summary : TemplateSummary := summaryOf c2template [c2entry]

/-- A large Error-level template summary (450-character pattern) whose
rendered size alone exceeds a 300-token budget. -/
def c2big : TemplateSummary :=
  ⟨String.mk (List.replicate 450 'a'), 1, LevelError, [], 0, 0⟩

/-- A small Error-level template summary that fits the budget alone. -/
def c2small : TemplateSummary := ⟨"x", 1, LevelError, [], 0, 0⟩

end Cyro

namespace Cyro

/-! ## General lemmas about the compressor -/

theorem goLen_append (a b : String) : goLen (a ++ b) = goLen a + goLen b := by
  cases a with
  | mk da =>
    cases b with
    | mk db => exact String.utf8Len_append da db

/-- The section loop appends some `inc` to the included list and adds
exactly the per-template estimates of `inc` to the tally, while the builder
grows by exactly the rendered lengths of `inc`. -/
theorem sectionLoop_delta (avail : Int) :
    ∀ (ts : List TemplateSummary) (st : WriteState),
      ∃ inc : List TemplateSummary,
        (sectionLoop avail st ts).included = st.included ++ inc ∧
        (sectionLoop avail st ts).currentTokens =
          st.currentTokens + ((inc.map (fun t => estimateTokens (formatTemplate t))).sum) ∧
        goLen (sectionLoop avail st ts).sb =
          goLen st.sb + ((inc.map (fun t => goLen (formatTemplate t))).sum) := by
  intro ts
  induction ts with
  | nil =>
    intro st
    exact ⟨[], by simp [sectionLoop], by simp [sectionLoop], by simp [sectionLoop]⟩
  | cons t rest ih =>
    intro st
    by_cases h : st.currentTokens + estimateTokens (formatTemplate t) > avail
    · exact ⟨[], by simp [sectionLoop, h], by simp [sectionLoop, h], by simp [sectionLoop, h]⟩
    · obtain ⟨inc, h1, h2, h3⟩ :=
        ih ⟨st.sb ++ formatTemplate t, st.currentTokens + estimateTokens (formatTemplate t),
            st.included ++ [t]⟩
      refine ⟨t :: inc, ?_, ?_, ?_⟩
      · rw [sectionLoop, if_neg h, h1]; simp
      · rw [sectionLoop, if_neg h, h2]; simp; omega
      · rw [sectionLoop, if_neg h, h3]; simp [goLen_append]; omega

/-- From the moment anything has been accepted, the section loop's tally is
bounded by the available budget (each acceptance is guarded). -/
theorem sectionLoop_budget (avail : Int) :
    ∀ (ts : List TemplateSummary) (st : WriteState),
      (st.included ≠ [] → st.currentTokens ≤ avail) →
      ((sectionLoop avail st ts).included ≠ [] →
        (sectionLoop avail st ts).currentTokens ≤ avail) := by
  intro ts
  induction ts with
  | nil => intro st h; simpa [sectionLoop] using h
  | cons t rest ih =>
    intro st h
    by_cases hb : st.currentTokens + estimateTokens (formatTemplate t) > avail
    · simpa [sectionLoop, hb] using h
    · rw [sectionLoop, if_neg hb]
      refine ih _ (fun _ => ?_)
      show st.currentTokens + estimateTokens (formatTemplate t) ≤ avail
      omega

/-- Bubble-sorting a constant list is the identity: the strict comparison
between equal scores never triggers a swap. -/
theorem bubbleInner_replicate (i n : Nat) (c : TemplateSummary) :
    ∀ js : List Nat, (∀ j ∈ js, j < n) →
      js.foldl
        (fun acc2 j =>
          if i < j then
            if templatePriorityScore (acc2.getD j default) >
               templatePriorityScore (acc2.getD i default) then
              listSwap acc2 i j
            else acc2
          else acc2)
        (List.replicate n c) = List.replicate n c := by
  intro js
  induction js with
  | nil => intro _; rfl
  | cons j rest ih =>
    intro hmem
    have hj : j < n := hmem j (by simp)
    have hstep :
        (if i < j then
          if templatePriorityScore ((List.replicate n c).getD j default) >
             templatePriorityScore ((List.replicate n c).getD i default) then
            listSwap (List.replicate n c) i j
          else List.replicate n c
         else List.replicate n c) = List.replicate n c := by
      by_cases hij : i < j
      · have hi : i < n := Nat.lt_trans hij hj
        have hgj : (List.replicate n c).getD j default = c := by
          rw [List.getD_eq_getElem _ _ (by simpa using hj)]; simp
        have hgi : (List.replicate n c).getD i default = c := by
          rw [List.getD_eq_getElem _ _ (by simpa using hi)]; simp
        rw [if_pos hij, hgj, hgi, if_neg (by omega)]
      · rw [if_neg hij]
    rw [List.foldl_cons, hstep]
    exact ih (fun x hx => hmem x (by simp [hx]))

/-- Prioritizing a constant list of summaries returns it unchanged. -/
theorem prioritizeTemplates_replicate (n : Nat) (c : TemplateSummary) :
    prioritizeTemplates (List.replicate n c) = List.replicate n c := by
  unfold prioritizeTemplates
  rw [List.length_replicate]
  have : ∀ is : List Nat,
      is.foldl
        (fun acc i =>
          (List.range n).foldl
            (fun acc2 j =>
              if i < j then
                if templatePriorityScore (acc2.getD j default) >
                   templatePriorityScore (acc2.getD i default) then
                  listSwap acc2 i j
                else acc2
              else acc2)
            acc)
        (List.replicate n c) = List.replicate n c := by
    intro is
    induction is with
    | nil => rfl
    | cons i rest ih =>
      rw [List.foldl_cons, bubbleInner_replicate i n c (List.range n) (by simp)]
      exact ih
  exact this (List.range n)

/-- Exact account of the section loop on a constant list of `c2summary`
(each rendering is 31 bytes, estimated at 7 tokens), against the available
budget 5800: some `m` summaries are accepted, where either everything fit
or the next one would overflow, and any accepted tally is within budget. -/
theorem c2_sectionLoop (n : Nat) :
    ∀ st : WriteState,
      ∃ m : Nat, m ≤ n ∧
        (sectionLoop 5800 st (List.replicate n c2summary)).currentTokens =
          st.currentTokens + 7 * m ∧
        goLen (sectionLoop 5800 st (List.replicate n c2summary)).sb =
          goLen st.sb + 31 * m ∧
        (m = n ∨ st.currentTokens + 7 * (m + 1) > 5800) ∧
        (1 ≤ m → st.currentTokens + 7 * m ≤ 5800) := by
  have h7 : estimateTokens (formatTemplate c2summary) = 7 := by decide
  have h31 : goLen (formatTemplate c2summary) = 31 := by decide
  induction n with
  | zero =>
    intro st
    exact ⟨0, Nat.le_refl 0, by simp [sectionLoop], by simp [sectionLoop], Or.inl rfl, by omega⟩
  | succ n ih =>
    intro st
    rw [List.replicate_succ]
    by_cases hb : st.currentTokens + (7 : Int) > 5800
    · refine ⟨0, by omega, ?_, ?_, Or.inr (by omega), by omega⟩
      · rw [sectionLoop, h7, if_pos hb]; omega
      · rw [sectionLoop, h7, if_pos hb]; omega
    · obtain ⟨m, hm, hcur, hsb, hstop, hin⟩ :=
        ih ⟨st.sb ++ formatTemplate c2summary, st.currentTokens + 7, st.included ++ [c2summary]⟩
      dsimp only at hcur hsb hstop hin
      rw [goLen_append, h31] at hsb
      refine ⟨m + 1, by omega, ?_, ?_, ?_, ?_⟩
      · rw [sectionLoop, h7, if_neg hb, hcur]; push_cast; ring
      · rw [sectionLoop, h7, if_neg hb, hsb]; ring
      · rcases hstop with h | h
        · exact Or.inl (by omega)
        · exact Or.inr (by omega)
      · intro _
        rcases Decidable.em (m = 0) with h0 | h0
        · subst h0; omega
        · have := hin (by omega); omega

/-- The linking step of the C2 counterexample: the single entry is linked to
the first matching template's ID bucket. -/
theorem c2_link (n : Nat) (hn : 0 < n) :
    linkEntries [c2entry] (List.replicate n c2template) = [("t", [c2entry])] := by
  unfold linkEntries
  have hp : matchesTemplate c2entry.message c2template = true := by decide
  simp only [List.foldl_cons, List.foldl_nil]
  rw [List.find?_replicate_of_pos hp, if_neg (by omega)]
  decide

/-- The summaries of the C2 counterexample: every one of the `n` identical
templates reads the same bucket, so `n` identical summaries are produced. -/
theorem c2_summaries (n : Nat) (hn : 0 < n) :
    createTemplateSummaries [c2entry] (List.replicate n c2template) =
      List.replicate n c2summary := by
  unfold createTemplateSummaries
  rw [c2_link n hn]
  exact List.filterMap_replicate_of_some (by decide)

/-- The head of a section is accepted whenever the entry tally plus its own
estimate fits the available budget. -/
theorem sectionLoop_head_accepted (avail : Int) (t : TemplateSummary)
    (rest : List TemplateSummary) (st : WriteState)
    (h : st.currentTokens + estimateTokens (formatTemplate t) ≤ avail) :
    t ∈ (sectionLoop avail st (t :: rest)).included := by
  rw [sectionLoop, if_neg (by omega)]
  obtain ⟨inc, h1, -, -⟩ := sectionLoop_delta avail rest
    ⟨st.sb ++ formatTemplate t, st.currentTokens + estimateTokens (formatTemplate t),
     st.included ++ [t]⟩
  rw [h1]
  simp

/-- A section preserves the accounting invariant: the tally always equals
a base value plus the estimates of everything included so far, and once the
included list is non-empty the tally is within the available budget. -/
theorem writeSection_inv (avail : Int) (cb : Bool) (hdr : String)
    (lst : List TemplateSummary) (st : WriteState) (base : Int)
    (h1 : st.currentTokens =
      base + ((st.included.map (fun t => estimateTokens (formatTemplate t))).sum))
    (h2 : st.included ≠ [] → st.currentTokens ≤ avail) :
    (writeSection avail cb hdr lst st).currentTokens =
      base + (((writeSection avail cb hdr lst st).included.map
        (fun t => estimateTokens (formatTemplate t))).sum) ∧
    ((writeSection avail cb hdr lst st).included ≠ [] →
      (writeSection avail cb hdr lst st).currentTokens ≤ avail) := by
  unfold writeSection
  by_cases hc : (lst.isEmpty || (cb && !(st.currentTokens < avail))) = true
  · rw [if_pos hc]; exact ⟨h1, h2⟩
  · rw [if_neg hc]
    obtain ⟨inc, hi, hcur, -⟩ :=
      sectionLoop_delta avail lst ⟨st.sb ++ hdr, st.currentTokens, st.included⟩
    have hbud := sectionLoop_budget avail lst ⟨st.sb ++ hdr, st.currentTokens, st.included⟩ h2
    dsimp only at hi hcur hbud
    constructor
    · dsimp only
      rw [hcur, hi, h1]
      simp [Int.add_assoc]
    · intro hne
      dsimp only at hne ⊢
      exact hbud (by rw [hi] at hne ⊢; exact hne)

/-- A section never drops templates that were already included. -/
theorem writeSection_mono (avail : Int) (cb : Bool) (hdr : String)
    (lst : List TemplateSummary) (st : WriteState) (t : TemplateSummary)
    (h : t ∈ st.included) : t ∈ (writeSection avail cb hdr lst st).included := by
  unfold writeSection
  by_cases hc : (lst.isEmpty || (cb && !(st.currentTokens < avail))) = true
  · rw [if_pos hc]; exact h
  · rw [if_neg hc]
    obtain ⟨inc, hi, -, -⟩ :=
      sectionLoop_delta avail lst ⟨st.sb ++ hdr, st.currentTokens, st.included⟩
    dsimp only at hi ⊢
    rw [hi]
    exact List.mem_append_left _ h

/-- Accounting law of `writeTemplates`: the final tally is the header
estimate plus the estimates of all included templates, and it is at most
`tokenLimit - 200` as soon as anything was included. -/
theorem writeTemplates_inv (sb0 : String) (ts : List TemplateSummary) (L : Int) :
    (writeTemplates sb0 ts L).currentTokens =
      estimateTokens sb0 +
        (((writeTemplates sb0 ts L).included.map
          (fun t => estimateTokens (formatTemplate t))).sum) ∧
    ((writeTemplates sb0 ts L).included ≠ [] →
      (writeTemplates sb0 ts L).currentTokens ≤ L - 200) := by
  unfold writeTemplates
  have s0 : (⟨sb0, estimateTokens sb0, []⟩ : WriteState).currentTokens =
      estimateTokens sb0 +
        ((([] : List TemplateSummary).map (fun t => estimateTokens (formatTemplate t))).sum) := by
    simp
  have step1 := writeSection_inv (L - 200) false "=== Error Summary ===\n"
    (ts.filter (fun t => t.level == LevelFatal || t.level == LevelError))
    ⟨sb0, estimateTokens sb0, []⟩ (estimateTokens sb0) s0 (by simp)
  have step2 := writeSection_inv (L - 200) true "=== Warning Summary ===\n"
    (ts.filter (fun t => t.level == LevelWarn)) _ (estimateTokens sb0) step1.1 step1.2
  have step3 := writeSection_inv (L - 200) true "=== Top Info Patterns ===\n"
    (ts.filter (fun t => !(t.level == LevelFatal || t.level == LevelError ||
      t.level == LevelWarn))) _ (estimateTokens sb0) step2.1 step2.2
  exact step3

/-- First-fit law for the error section: the first error template (in the
already-prioritized order) is included whenever the header estimate plus its
own estimate fits the available budget. -/
theorem writeTemplates_first_error (sb0 : String) (ts : List TemplateSummary) (L : Int)
    (e : TemplateSummary) (es : List TemplateSummary)
    (herr : ts.filter (fun t => t.level == LevelFatal || t.level == LevelError) = e :: es)
    (hfit : estimateTokens sb0 + estimateTokens (formatTemplate e) ≤ L - 200) :
    e ∈ (writeTemplates sb0 ts L).included := by
  unfold writeTemplates
  rw [herr]
  apply writeSection_mono
  apply writeSection_mono
  unfold writeSection
  rw [if_neg (by simp)]
  dsimp only
  obtain ⟨inc, hi, -, -⟩ := sectionLoop_delta (L - 200) es
    ⟨(⟨sb0, estimateTokens sb0, []⟩ : WriteState).sb ++ "=== Error Summary ===\n" ++
      formatTemplate e,
     (⟨sb0, estimateTokens sb0, []⟩ : WriteState).currentTokens +
      estimateTokens (formatTemplate e),
     (⟨sb0, estimateTokens sb0, []⟩ : WriteState).included ++ [e]⟩
  exact sectionLoop_head_accepted (L - 200) e es _ (by dsimp only; omega)

/-- A section over an empty list is the identity. -/
theorem writeSection_nil (avail : Int) (cb : Bool) (hdr : String) (st : WriteState) :
    writeSection avail cb hdr [] st = st := by
  unfold writeSection
  simp

/-- Concrete evaluation of the builder length for the C2 counterexample:
header (67 bytes, 16 tokens) + section header (26 bytes) + 826 accepted
31-byte template lines + closing newline. -/
theorem c2_writeTemplates_sb :
    goLen (writeTemplates (writeHeader ⟨0, 0⟩ 1 827 0)
      (List.replicate 827 c2summary) 6000).sb = 25700 := by
  have hest : estimateTokens (writeHeader ⟨0, 0⟩ 1 827 0) = 16 := by decide
  have he : (List.replicate 827 c2summary).filter
      (fun t => t.level == LevelFatal || t.level == LevelError) = [] :=
    List.filter_replicate_of_neg (by decide)
  have hw : (List.replicate 827 c2summary).filter (fun t => t.level == LevelWarn) = [] :=
    List.filter_replicate_of_neg (by decide)
  have ho : (List.replicate 827 c2summary).filter
      (fun t => !(t.level == LevelFatal || t.level == LevelError || t.level == LevelWarn)) =
      List.replicate 827 c2summary :=
    List.filter_replicate_of_pos (by decide)
  simp only [writeTemplates]
  rw [he, hw, ho, writeSection_nil, writeSection_nil]
  unfold writeSection
  rw [if_neg (by rw [hest]; decide)]
  dsimp only
  have h58 : (6000 : Int) - 200 = 5800 := by norm_num
  rw [h58]
  obtain ⟨m, hm, hcur, hsb, hstop, hin⟩ := c2_sectionLoop 827
    ⟨writeHeader ⟨0, 0⟩ 1 827 0 ++ "=== Top Info Patterns ===\n",
     estimateTokens (writeHeader ⟨0, 0⟩ 1 827 0), []⟩
  dsimp only at hcur hsb hstop hin
  rw [hest] at hstop hin
  have hm826 : m = 826 := by omega
  rw [goLen_append, hsb, hm826, goLen_append]
  have h1 : goLen (writeHeader ⟨0, 0⟩ 1 827 0) = 67 := by decide
  have h2 : goLen "=== Top Info Patterns ===\n" = 26 := by decide
  have h3 : goLen "\n" = 1 := by decide
  rw [h1, h2, h3]

/-- Concrete token count of the C2 counterexample instance. -/
theorem c2_tokenCount :
    (compress 6000 [c2entry] (List.replicate 827 c2template) 0).tokenCount = 6430 := by
  have hbranch : compress 6000 [c2entry] (List.replicate 827 c2template) 0 =
      buildOutput [c2entry] (List.replicate 827 c2summary) ⟨0, 0⟩ 0 6000 := by
    have htr : calculateTimeRange [c2entry] = ⟨0, 0⟩ := by decide
    simp only [compress]
    rw [if_neg (by decide)]
    rw [c2_summaries 827 (by omega), prioritizeTemplates_replicate, htr]
  rw [hbranch]
  unfold buildOutput
  dsimp only
  simp only [List.length_replicate, List.length_cons, List.length_nil]
  show estimateTokens
    ((writeTemplates (writeHeader ⟨0, 0⟩ 1 827 0) (List.replicate 827 c2summary) 6000).sb ++
      writeFooter 0 6000) = 6430
  unfold estimateTokens
  rw [goLen_append, c2_writeTemplates_sb]
  have hf : goLen (writeFooter 0 6000) = 23 := by decide
  rw [hf]
  norm_num

/-! ## Injectivity of the decimal rendering (needed for template IDs) -/

theorem toDigitsCore_append :
    ∀ (f n : Nat) (l : List Char),
      Nat.toDigitsCore 10 f n l = Nat.toDigitsCore 10 f n [] ++ l := by
  intro f
  induction f with
  | zero => intro n l; rfl
  | succ f ih =>
    intro n l
    simp only [Nat.toDigitsCore]
    by_cases h : n / 10 = 0
    · simp [h]
    · rw [if_neg h, if_neg h, ih (n / 10) (Nat.digitChar (n % 10) :: l),
        ih (n / 10) [Nat.digitChar (n % 10)]]
      simp

theorem toDigitsCore_fuel :
    ∀ (n f f' : Nat) (l : List Char), n < f → n < f' →
      Nat.toDigitsCore 10 f n l = Nat.toDigitsCore 10 f' n l := by
  intro n
  induction n using Nat.strong_induction_on with
  | _ n ih =>
    intro f f' l hf hf'
    match f, f' with
    | fa + 1, fb + 1 =>
      simp only [Nat.toDigitsCore]
      by_cases h : n / 10 = 0
      · simp [h]
      · rw [if_neg h, if_neg h]
        have hn : 0 < n := by
          rcases Nat.eq_zero_or_pos n with h0 | h0
          · subst h0; simp at h
          · exact h0
        have hdiv : n / 10 < n := Nat.div_lt_self hn (by omega)
        exact ih (n / 10) hdiv fa fb _ (by omega) (by omega)

theorem digitChar_sub : ∀ d : Nat, d < 10 → (Nat.digitChar d).toNat - 48 = d := by decide

theorem reprVal_append (a b : List Char) :
    reprVal (a ++ b) = b.foldl (fun acc c => acc * 10 + (c.toNat - 48)) (reprVal a) := by
  simp [reprVal, List.foldl_append]

theorem reprVal_toDigits : ∀ n : Nat, reprVal (Nat.toDigits 10 n) = n := by
  intro n
  induction n using Nat.strong_induction_on with
  | _ n ih =>
    unfold Nat.toDigits
    simp only [Nat.toDigitsCore]
    by_cases h : n / 10 = 0
    · rw [if_pos h]
      have hlt : n < 10 := by omega
      have : n % 10 = n := Nat.mod_eq_of_lt hlt
      simp [reprVal, this, digitChar_sub n hlt]
    · rw [if_neg h]
      have hn : 0 < n := by
        rcases Nat.eq_zero_or_pos n with h0 | h0
        · subst h0; simp at h
        · exact h0
      have hdiv : n / 10 < n := Nat.div_lt_self hn (by omega)
      rw [toDigitsCore_append n (n / 10) [Nat.digitChar (n % 10)],
        toDigitsCore_fuel (n / 10) n (n / 10 + 1) [] (by omega) (by omega)]
      rw [show Nat.toDigitsCore 10 (n / 10 + 1) (n / 10) [] = Nat.toDigits 10 (n / 10) from rfl]
      rw [reprVal_append, ih (n / 10) hdiv]
      simp [digitChar_sub (n % 10) (Nat.mod_lt n (by omega))]
      omega

theorem natRepr_injective : Function.Injective Nat.repr := by
  intro a b h
  have hd : Nat.toDigits 10 a = Nat.toDigits 10 b := by
    have := congrArg String.data h
    simpa [Nat.repr, List.asString] using this
  have := congrArg reprVal hd
  rwa [reprVal_toDigits, reprVal_toDigits] at this

theorem tId_injective : Function.Injective (fun i : Nat => "T_" ++ toString (i + 1)) := by
  intro a b h
  have hd := congrArg String.data h
  simp only [String.data_append] at hd
  have h2 : ("T_" : String).data ++ (Nat.repr (a + 1)).data =
      ("T_" : String).data ++ (Nat.repr (b + 1)).data := hd
  have h3 : (Nat.repr (a + 1)).data = (Nat.repr (b + 1)).data :=
    List.append_cancel_left h2
  have h4 : Nat.repr (a + 1) = Nat.repr (b + 1) := by
    apply congrArg String.mk at h3
    exact h3
  have := natRepr_injective h4
  omega

theorem idKeys_nodup (n : Nat) : (idKeys n).Nodup :=
  (List.nodup_range n).map tId_injective

theorem idKeys_succ (n : Nat) :
    idKeys (n + 1) = idKeys n ++ ["T_" ++ toString (n + 1)] := by
  unfold idKeys
  rw [List.range_succ, List.map_append]
  rfl

/-! ## Template-ID bookkeeping of the Drain extractor -/

theorem insertWalk_snd (act : List String → List String × α) :
    ∀ (keys : List String) (nd : ParseTreeNode),
      ∃ ids, (insertWalk act nd keys).2 = (act ids).2 := by
  intro keys
  induction keys with
  | nil =>
    intro nd
    cases nd with
    | node cs ids => exact ⟨ids, rfl⟩
  | cons k rest ih =>
    intro nd
    cases nd with
    | node cs ids =>
      obtain ⟨ids2, h⟩ := ih
        (match lookupChild cs (if (lookupChild cs k).isSome then k
          else if drainMaxChildren ≤ cs.length then "<*>" else k) with
         | some c => c
         | none => ParseTreeNode.node [] [])
      exact ⟨ids2, h⟩

theorem findSimilar_get (m : TMap) (tk : List String) :
    ∀ (ids : List String) (id : String) (tmpl : Template),
      findSimilarTemplate m tk ids = some (id, tmpl) → tmapGet m id = some tmpl := by
  intro ids
  induction ids with
  | nil => intro id tmpl h; simp [findSimilarTemplate] at h
  | cons id0 rest ih =>
    intro id tmpl h
    rw [findSimilarTemplate] at h
    cases hg : tmapGet m id0 with
    | some t =>
      rw [hg] at h
      dsimp only at h
      by_cases hs : simAtLeastHalf tk t.tokens
      · rw [if_pos hs] at h
        cases h
        exact hg
      · rw [if_neg hs] at h
        exact ih id tmpl h
    | none =>
      rw [hg] at h
      dsimp only at h
      exact ih id tmpl h

theorem tmapGet_any (m : TMap) (k : String) (t : Template) (h : tmapGet m k = some t) :
    m.any (fun kv => kv.1 == k) = true := by
  unfold tmapGet at h
  cases hf : m.find? (fun kv => kv.1 == k) with
  | some kv =>
    have hp := List.find?_some hf
    exact List.any_eq_true.mpr ⟨kv, List.mem_of_find?_eq_some hf, hp⟩
  | none => rw [hf] at h; cases h

theorem map_fst_tmapSet_mem (m : TMap) (k : String) (t : Template)
    (h : m.any (fun kv => kv.1 == k) = true) :
    (tmapSet m k t).map (fun kv => kv.1) = m.map (fun kv => kv.1) := by
  unfold tmapSet
  rw [if_pos h, List.map_map]
  apply List.map_congr_left
  intro kv _
  by_cases hk : kv.1 == k
  · simp only [Function.comp, hk, if_pos]
    exact (eq_of_beq hk).symm
  · simp [Function.comp, hk]

theorem map_fst_tmapSet_append (m : TMap) (k : String) (t : Template)
    (h : m.any (fun kv => kv.1 == k) = false) :
    (tmapSet m k t).map (fun kv => kv.1) = m.map (fun kv => kv.1) ++ [k] := by
  unfold tmapSet
  rw [if_neg (by simp [h]), List.map_append]
  rfl

theorem map_fst_tmapUpdate (m : TMap) (k : String) (f : Template → Template) :
    (tmapUpdate m k f).map (fun kv => kv.1) = m.map (fun kv => kv.1) := by
  unfold tmapUpdate
  rw [List.map_map]
  apply List.map_congr_left
  intro kv _
  by_cases hk : kv.1 == k <;> simp [Function.comp, hk]

theorem leafAction_keys (m : TMap) (tk ids : List String) :
    ((leafAction m tk ids).2.2).map (fun kv => kv.1) = m.map (fun kv => kv.1) ∨
    ((leafAction m tk ids).2.2).map (fun kv => kv.1) =
      m.map (fun kv => kv.1) ++ ["T_" ++ toString (m.length + 1)] := by
  unfold leafAction
  cases hfs : findSimilarTemplate m tk ids with
  | some p =>
    left
    exact map_fst_tmapSet_mem m p.1 _ (tmapGet_any m p.1 p.2 (findSimilar_get m tk ids p.1 p.2 hfs))
  | none =>
    by_cases ha : m.any (fun kv => kv.1 == "T_" ++ toString (m.length + 1)) = true
    · left
      exact map_fst_tmapSet_mem m _ _ ha
    · right
      exact map_fst_tmapSet_append m _ _ (Bool.eq_false_iff.mpr ha)

theorem extract_keys (st : DrainState) (msg : String) :
    ((extract st msg).2.templates).map (fun kv => kv.1) =
      st.templates.map (fun kv => kv.1) ∨
    ((extract st msg).2.templates).map (fun kv => kv.1) =
      st.templates.map (fun kv => kv.1) ++
        ["T_" ++ toString (st.templates.length + 1)] := by
  unfold extract
  by_cases he : (goFields msg).isEmpty
  · left; simp [he]
  · rw [if_neg (by simpa using he)]
    dsimp only
    rw [map_fst_tmapUpdate]
    unfold findOrCreateTemplate
    dsimp only
    obtain ⟨ids, hsnd⟩ := insertWalk_snd (leafAction st.templates (goFields msg))
      (walkKeys (goFields msg)) st.root
    rw [hsnd]
    exact leafAction_keys st.templates (goFields msg) ids

theorem extractAll_snd_acc :
    ∀ (ms : List String) (st : DrainState) (acc : List String),
      (ms.foldl (fun acc2 m => (acc2.1 ++ [(extract acc2.2 m).1], (extract acc2.2 m).2))
        (acc, st)).2 = (extractAll st ms).2 := by
  intro ms
  induction ms with
  | nil => intro st acc; rfl
  | cons m rest ih =>
    intro st acc
    show (rest.foldl _ (acc ++ [(extract st m).1], (extract st m).2)).2 = _
    rw [ih (extract st m).2 (acc ++ [(extract st m).1])]
    show _ = (rest.foldl _ ([] ++ [(extract st m).1], (extract st m).2)).2
    rw [ih (extract st m).2 ([] ++ [(extract st m).1])]

theorem extractAll_cons_snd (st : DrainState) (m : String) (ms : List String) :
    (extractAll st (m :: ms)).2 = (extractAll (extract st m).2 ms).2 := by
  show (ms.foldl _ ([] ++ [(extract st m).1], (extract st m).2)).2 = _
  rw [extractAll_snd_acc ms (extract st m).2 ([] ++ [(extract st m).1])]

theorem extractAll_append_snd (st : DrainState) (ms ms2 : List String) :
    (extractAll st (ms ++ ms2)).2 = (extractAll (extractAll st ms).2 ms2).2 := by
  induction ms generalizing st with
  | nil => rfl
  | cons m rest ih =>
    rw [List.cons_append, extractAll_cons_snd, ih, extractAll_cons_snd]

theorem extract_preserves_keysInv (st : DrainState) (m : String)
    (h : st.templates.map (fun kv => kv.1) = idKeys st.templates.length) :
    ((extract st m).2.templates).map (fun kv => kv.1) =
      idKeys ((extract st m).2.templates).length := by
  have hlen : ∀ tm : TMap, (tm.map (fun kv => kv.1)).length = tm.length := by
    intro tm; simp
  rcases extract_keys st m with hk | hk
  · have : ((extract st m).2.templates).length = st.templates.length := by
      rw [← hlen, hk, hlen]
    rw [hk, h, this]
  · have : ((extract st m).2.templates).length = st.templates.length + 1 := by
      rw [← hlen, hk]
      simp
    rw [hk, h, this, idKeys_succ]

theorem extractAll_keysInv :
    ∀ (ms : List String) (st : DrainState),
      st.templates.map (fun kv => kv.1) = idKeys st.templates.length →
      ((extractAll st ms).2.templates).map (fun kv => kv.1) =
        idKeys ((extractAll st ms).2.templates).length := by
  intro ms
  induction ms with
  | nil => intro st h; exact h
  | cons m rest ih =>
    intro st h
    rw [extractAll_cons_snd]
    exact ih _ (extract_preserves_keysInv st m h)

theorem getTemplateByID_isSome_iff (st : DrainState) (k : String) :
    (getTemplateByID st k).isSome = true ↔
      k ∈ st.templates.map (fun kv => kv.1) := by
  unfold getTemplateByID tmapGet
  constructor
  · intro h
    cases hf : st.templates.find? (fun kv => kv.1 == k) with
    | some kv =>
      have hp := List.find?_some hf
      refine List.mem_map.mpr ⟨kv, List.mem_of_find?_eq_some hf, ?_⟩
      exact eq_of_beq hp
    | none => rw [hf] at h; simp at h
  · intro h
    obtain ⟨kv, hmem, hk⟩ := List.mem_map.mp h
    have : (st.templates.find? (fun kv => kv.1 == k)).isSome := by
      rw [List.find?_isSome]
      exact ⟨kv, hmem, by rw [hk]; simp⟩
    cases hf : st.templates.find? (fun kv => kv.1 == k) with
    | some kv2 => simp [hf]
    | none => rw [hf] at this; simp at this

theorem extract_mem_keys (st : DrainState) (m : String) (k : String)
    (h : k ∈ st.templates.map (fun kv => kv.1)) :
    k ∈ ((extract st m).2.templates).map (fun kv => kv.1) := by
  rcases extract_keys st m with hk | hk
  · rwa [hk]
  · rw [hk]; exact List.mem_append_left _ h

/-- Claim C7 counterexample: template identifiers ARE reused around Reset.
After extracting one message the ID T_1 resolves to the template for
"hello"; after Reset, extracting a different message assigns the same ID
T_1 to a different template ("world again"), so GetTemplateByID resolves
one identifier to two different templates over the extractor's lifetime. -/
theorem claim_C7_counterexample :
    (extract newDrain "hello").1 = "T_1" ∧
    (extract (drainReset (extract newDrain "hello").2) "world again").1 = "T_1" ∧
    (getTemplateByID (extract newDrain "hello").2 "T_1").map (fun t => t.pattern) =
      some "hello" ∧
    (getTemplateByID (extract (drainReset (extract newDrain "hello").2) "world again").2
      "T_1").map (fun t => t.pattern) = some "world again" := by
  decide

/-- Claim C7 (amended): within one extractor lifetime between Resets,
template identifiers are monotonic and collision-free: after any message
sequence the templates map holds exactly the keys T_1 ... T_n in creation
order (n the number of templates), these keys are pairwise distinct, and an
identifier once assigned stays resolvable under any further extractions.
Reset restarts the scheme, so identifiers are reused across Resets. -/
theorem claim_C7_amended (ms : List String) :
    (((extractAll newDrain ms).2.templates).map (fun kv => kv.1) =
      idKeys ((extractAll newDrain ms).2.templates).length) ∧
    ((((extractAll newDrain ms).2.templates).map (fun kv => kv.1)).Nodup) ∧
    (∀ (ms2 : List String) (k : String),
      (getTemplateByID (extractAll newDrain ms).2 k).isSome = true →
      (getTemplateByID (extractAll newDrain (ms ++ ms2)).2 k).isSome = true) := by
  have hinv := extractAll_keysInv ms newDrain (by rfl)
  refine ⟨hinv, by rw [hinv]; exact idKeys_nodup _, ?_⟩
  intro ms2 k hk
  rw [extractAll_append_snd]
  rw [getTemplateByID_isSome_iff] at hk ⊢
  generalize (extractAll newDrain ms).2 = st at hk ⊢
  induction ms2 generalizing st with
  | nil => exact hk
  | cons m rest ih =>
    rw [extractAll_cons_snd]
    exact ih _ (extract_mem_keys st m k hk)

/-- Witness for the amended C7 claim at a concrete message sequence. -/
theorem claim_C7_amended_witness :
    (((extractAll newDrain ["a b", "c d e"]).2.templates).map (fun kv => kv.1) =
      idKeys ((extractAll newDrain ["a b", "c d e"]).2.templates).length) ∧
    (getTemplateByID (extractAll newDrain (["a b", "c d e"] ++ ["f"])).2 "T_1").isSome
      = true :=
  ⟨(claim_C7_amended ["a b", "c d e"]).1,
   (claim_C7_amended ["a b", "c d e"]).2.2 ["f"] "T_1" (by decide)⟩

/-! ## Behaviour of the Drain extractor on repeated and merged messages -/

theorem insertWalk_fresh (act : List String → List String × α) :
    ∀ keys : List String,
      insertWalk act (ParseTreeNode.node [] []) keys =
        (spine keys (act []).1, (act []).2) := by
  intro keys
  induction keys with
  | nil => rfl
  | cons k rest ih =>
    show (ParseTreeNode.node (setChild [] _ _) [], _) = _
    simp only [lookupChild, List.find?_nil, Option.isSome_none, Bool.false_eq_true,
      if_false, drainMaxChildren]
    rw [if_neg (by simp)]
    rw [ih]
    rfl

theorem insertWalk_spine (act : List String → List String × α) :
    ∀ (keys ids : List String),
      insertWalk act (spine keys ids) keys =
        (spine keys (act ids).1, (act ids).2) := by
  intro keys
  induction keys with
  | nil => intro ids; rfl
  | cons k rest ih =>
    intro ids
    show insertWalk act (ParseTreeNode.node [(k, spine rest ids)] []) (k :: rest) = _
    have hlook : lookupChild [(k, spine rest ids)] k = some (spine rest ids) := by
      simp [lookupChild]
    rw [insertWalk]
    rw [hlook]
    simp only [Option.isSome_some, if_true, hlook, ih]
    have hset : setChild [(k, spine rest ids)] k (spine rest (act ids).1) =
        [(k, spine rest (act ids).1)] := by
      simp [setChild]
    rw [hset]
    rfl

theorem createTemplateTokens_length (tk : List String) :
    (createTemplateTokens tk).length = tk.length := by
  simp [createTemplateTokens]

theorem simMatches_self : ∀ tk : List String,
    simMatches tk (createTemplateTokens tk) = tk.length := by
  intro tk
  induction tk with
  | nil => rfl
  | cons t ts ih =>
    show simMatches (t :: ts) ((if isVariableToken t then "<*>" else t) :: createTemplateTokens ts) = _
    unfold simMatches at ih ⊢
    rw [List.zip_cons_cons, List.countP_cons]
    by_cases hv : isVariableToken t
    · simp only [hv, if_true]
      rw [ih]
      simp
    · simp only [hv, if_false, Bool.false_eq_true]
      rw [ih]
      simp

theorem simAtLeastHalf_self (tk : List String) (hne : tk ≠ []) :
    simAtLeastHalf tk (createTemplateTokens tk) = true := by
  unfold simAtLeastHalf
  have h1 : tk.isEmpty = false := by simpa [List.isEmpty_iff] using hne
  have h2 : (createTemplateTokens tk).isEmpty = false := by
    rw [List.isEmpty_eq_false_iff_exists_mem] at h1 ⊢
    obtain ⟨x, hx⟩ := h1
    exact ⟨_, List.mem_map_of_mem _ hx⟩
  rw [h1, h2]
  simp only [Bool.false_and, Bool.false_or, Bool.false_eq_true, if_false]
  rw [simMatches_self, createTemplateTokens_length]
  simp [decide_eq_true_eq]
  omega

theorem mergeTemplates_self (tk : List String) :
    mergeTemplates (createTemplateTokens tk) tk = createTemplateTokens tk := by
  apply List.ext_getElem
  · simp [mergeTemplates, createTemplateTokens]
  · intro i h1 h2
    have hlen : i < tk.length := by
      simpa [createTemplateTokens] using h2
    have hm : i < max (createTemplateTokens tk).length tk.length := by
      rw [createTemplateTokens_length]; omega
    have hlen2 : i < (createTemplateTokens tk).length := by
      rw [createTemplateTokens_length]; omega
    unfold mergeTemplates
    rw [List.getElem_map]
    simp only [List.getElem_range]
    have hget1 : (createTemplateTokens tk).getD i "" = (createTemplateTokens tk)[i] := by
      apply List.getD_eq_getElem
    have hget2 : tk.getD i "" = tk[i] := by
      apply List.getD_eq_getElem
    have hct : (createTemplateTokens tk)[i] =
        if isVariableToken (tk[i]) then "<*>" else tk[i] := by
      simp [createTemplateTokens]
    rw [if_neg (by rw [createTemplateTokens_length]; omega)]
    rw [hget1, hget2, hct]
    by_cases hv : isVariableToken (tk[i])
    · rw [if_pos hv]
      rw [if_pos (Or.inl rfl)]
    · rw [if_neg hv]
      by_cases hw : tk[i] = "<*>"
      · rw [if_pos (Or.inl hw)]
        exact hw.symm
      · rw [if_neg (by push_neg; exact ⟨hw, rfl⟩)]

theorem tmapUpdate_singleton (k : String) (t : Template) (f : Template → Template) :
    tmapUpdate [(k, t)] k f = [(k, f t)] := by
  simp [tmapUpdate]

theorem extract_repeatState (m : String) (k : Nat) (hne : goFields m ≠ []) :
    extract (repeatState m (goFields m) k) m =
      ("T_1", repeatState m (goFields m) (k + 1)) := by
  have hget : tmapGet [("T_1", repeatTemplate m (goFields m) k)] "T_1" =
      some (repeatTemplate m (goFields m) k) := by
    simp [tmapGet]
  have hfs : findSimilarTemplate [("T_1", repeatTemplate m (goFields m) k)]
      (goFields m) ["T_1"] = some ("T_1", repeatTemplate m (goFields m) k) := by
    rw [findSimilarTemplate, hget]
    dsimp only
    rw [if_pos]
    show simAtLeastHalf (goFields m) (createTemplateTokens (goFields m)) = true
    exact simAtLeastHalf_self _ hne
  have hact : leafAction [("T_1", repeatTemplate m (goFields m) k)] (goFields m) ["T_1"] =
      (["T_1"], ("T_1", [("T_1", repeatTemplate m (goFields m) k)])) := by
    unfold leafAction
    rw [hfs]
    dsimp only
    rw [show (repeatTemplate m (goFields m) k).tokens =
      createTemplateTokens (goFields m) from rfl]
    rw [mergeTemplates_self]
    have hsame : ({ repeatTemplate m (goFields m) k with
        tokens := createTemplateTokens (goFields m),
        pattern := tokensToPattern (createTemplateTokens (goFields m)) } : Template) =
        repeatTemplate m (goFields m) k := rfl
    rw [hsame]
    simp [tmapSet]
  have hT : ({ repeatTemplate m (goFields m) k with
      count := (repeatTemplate m (goFields m) k).count + 1,
      examples :=
        if (repeatTemplate m (goFields m) k).examples.length < 3 then
          (repeatTemplate m (goFields m) k).examples ++ [m]
        else (repeatTemplate m (goFields m) k).examples } : Template) =
      repeatTemplate m (goFields m) (k + 1) := by
    unfold repeatTemplate
    simp only [List.length_replicate]
    by_cases hk : min k 3 < 3
    · rw [if_pos hk]
      have hkk : min k 3 = k := by omega
      have hk1 : min (k + 1) 3 = k + 1 := by omega
      rw [hkk, hk1]
      rw [show List.replicate k m ++ [m] = List.replicate (k + 1) m from by
        rw [List.replicate_add k 1 m]; rfl]
    · rw [if_neg hk]
      have hkk : min k 3 = 3 := by omega
      have hk1 : min (k + 1) 3 = 3 := by omega
      rw [hkk, hk1]
  show extract ⟨spine (walkKeys (goFields m)) ["T_1"],
    [("T_1", repeatTemplate m (goFields m) k)]⟩ m = _
  unfold extract
  rw [if_neg (by simpa using hne)]
  dsimp only
  unfold findOrCreateTemplate
  dsimp only
  rw [insertWalk_spine, hact]
  dsimp only
  rw [tmapUpdate_singleton]
  rw [hT]
  rfl


theorem extract_first (m : String) (hne : goFields m ≠ []) :
    extract newDrain m = ("T_1", repeatState m (goFields m) 1) := by
  have hact : leafAction [] (goFields m) [] =
      (["T_1"], ("T_1", [("T_1",
        ⟨"T_1", tokensToPattern (createTemplateTokens (goFields m)),
         createTemplateTokens (goFields m), 0, []⟩)])) := by
    unfold leafAction
    rw [show findSimilarTemplate [] (goFields m) [] = none from rfl]
    simp [tmapSet]
    decide
  unfold extract
  rw [if_neg (by simpa using hne)]
  dsimp only
  unfold findOrCreateTemplate
  show (_, _) = _
  rw [show (newDrain).root = ParseTreeNode.node [] [] from rfl,
    show (newDrain).templates = [] from rfl]
  rw [insertWalk_fresh, hact]
  dsimp only
  rw [tmapUpdate_singleton]
  rfl

theorem extractAll_repeat_fold (m : String) (hne : goFields m ≠ []) :
    ∀ (j k : Nat) (acc : List String),
      ((List.replicate j m).foldl
        (fun acc2 m2 => (acc2.1 ++ [(extract acc2.2 m2).1], (extract acc2.2 m2).2))
        (acc, repeatState m (goFields m) k)) =
      (acc ++ List.replicate j "T_1", repeatState m (goFields m) (k + j)) := by
  intro j
  induction j with
  | zero => intro k acc; simp
  | succ j ih =>
    intro k acc
    rw [List.replicate_succ, List.foldl_cons, extract_repeatState m k hne]
    dsimp only
    rw [ih (k + 1) (acc ++ ["T_1"])]
    rw [List.replicate_succ]
    simp [Nat.add_assoc, Nat.add_comm 1 j]

/-- Claim C4 counterexample: template merging can redirect a message to a
different template than its first occurrence received.  The second and
fourth messages are byte-identical ("a b c w x y z q"): the first
occurrence creates and returns T_2 (similarity with T_1 is 3/8 < 0.5), but
after the third message merges positions 4-6 of T_1 into wildcards, the
fourth message matches T_1 with similarity 6/8 and returns T_1; T_2's count
stays 1 although the message occurred twice. -/
theorem claim_C4_counterexample :
    (extractAll newDrain
      ["a b c d e f g h", "a b c w x y z q", "a b c w x y g h", "a b c w x y z q"]).1 =
      ["T_1", "T_2", "T_1", "T_1"] ∧
    (getTemplateByID (extractAll newDrain
      ["a b c d e f g h", "a b c w x y z q", "a b c w x y g h", "a b c w x y z q"]).2
      "T_2").map (fun t => t.count) = some 1 := by
  decide

/-- Claim C4 (amended): for a sequence consisting of n occurrences of one
message (with a non-empty token list) and no other messages, the extractor
returns the same identifier T_1 for every occurrence and that template's
count equals n.  With other messages interleaved, merging can redirect a
later identical occurrence to an earlier template (see the
counterexample), so the identifier stability only holds against templates
as they stood at the time of each occurrence. -/
theorem claim_C4_amended (m : String) (n : Nat) (hne : goFields m ≠ []) (hn : 1 ≤ n) :
    (extractAll newDrain (List.replicate n m)).1 = List.replicate n "T_1" ∧
    (getTemplateByID (extractAll newDrain (List.replicate n m)).2 "T_1").map
      (fun t => t.count) = some n := by
  obtain ⟨j, rfl⟩ : ∃ j, n = j + 1 := ⟨n - 1, by omega⟩
  have hall : extractAll newDrain (List.replicate (j + 1) m) =
      (List.replicate (j + 1) "T_1", repeatState m (goFields m) (j + 1)) := by
    unfold extractAll
    rw [List.replicate_succ, List.foldl_cons]
    rw [show ((([] : List String) ++ [(extract newDrain m).1], (extract newDrain m).2))
      = ([(extract newDrain m).1], (extract newDrain m).2) from by simp]
    rw [extract_first m hne]
    dsimp only
    rw [extractAll_repeat_fold m hne j 1 ["T_1"]]
    rw [List.replicate_succ]
    simp [Nat.add_comm 1 j]
  rw [hall]
  constructor
  · rfl
  · simp [getTemplateByID, tmapGet, repeatState, repeatTemplate]

/-- Witness for the amended C4 claim: three occurrences of one message all
return T_1 and the count is 3. -/
theorem claim_C4_amended_witness :
    (extractAll newDrain (List.replicate 3 "alpha beta 42")).1 =
      List.replicate 3 "T_1" ∧
    (getTemplateByID (extractAll newDrain (List.replicate 3 "alpha beta 42")).2 "T_1").map
      (fun t => t.count) = some 3 :=
  claim_C4_amended "alpha beta 42" 3 (by decide) (by decide)

/-! ## Redactor correlation properties -/

theorem placeholder_inj (a b : String)
    (h : "[" ++ "IPV4" ++ ":" ++ a ++ "]" = "[" ++ "IPV4" ++ ":" ++ b ++ "]") : a = b := by
  have hd := congrArg String.data h
  simp only [String.data_append, List.append_assoc] at hd
  have h1 := List.append_cancel_left hd
  have h2 := List.append_cancel_left h1
  have h3 := List.append_cancel_left h2
  have h4 : a.data = b.data := List.append_cancel_right h3
  exact congrArg String.mk h4

theorem getPlaceholder_spec (r : Redactor) (v : String) (hwf : RedactorWF r) :
    (getPlaceholder r v "IPV4").1 = "[" ++ "IPV4" ++ ":" ++ hashValue v ++ "]" ∧
    RedactorWF (getPlaceholder r v "IPV4").2 := by
  unfold getPlaceholder
  cases hf : r.hashMap.find? (fun kv => kv.1 == v) with
  | some kv =>
    have hp := List.find?_some hf
    have hmem := List.mem_of_find?_eq_some hf
    have hkv := hwf kv hmem
    have hk1 : kv.1 = v := eq_of_beq hp
    constructor
    · dsimp only
      rw [hkv, hk1]
    · exact hwf
  | none =>
    constructor
    · rfl
    · intro kv hkv
      rcases List.mem_append.mp hkv with hold | hnew
      · exact hwf kv hold
      · rcases List.mem_singleton.mp hnew with rfl
        rfl

set_option maxRecDepth 10000 in
/-- Claim C3 counterexample: two distinct IPv4 strings whose SHA-256
digests share the first two bytes (0x7879) receive the same placeholder
within one redactor instance, so redact(s) = redact(s2) does not imply
byte-equality of s and s2. -/
theorem claim_C3_counterexample :
    ipv4FullMatch "10.0.0.250" = true ∧ ipv4FullMatch "10.0.1.54" = true ∧
    "10.0.0.250" ≠ "10.0.1.54" ∧
    (redactFull (redactFull ⟨true, []⟩ "10.0.0.250").2 "10.0.1.54").1 =
      (redactFull (⟨true, []⟩ : Redactor) "10.0.0.250").1 := by
  decide

/-- Claim C3 (amended): within one enabled Redactor instance between
Resets, for strings that are full matches of the enabled ipv4 pattern, the
placeholder for a matched value is [IPV4:h] with h the first 4 hex
characters of the SHA-256 hash of the exact matched bytes; consequently
redact(s) = redact(s2) if and only if the 4-hex-character hash prefixes of
s and s2 agree.  Byte-equal inputs always redact equally, but distinct
values whose 16-bit hash prefixes collide also redact equally, so equality
of redactions does not imply byte-equality. -/
theorem claim_C3_amended (r : Redactor) (s1 s2 : String) (hwf : RedactorWF r)
    (hen : r.enabled = true)
    (h1 : ipv4FullMatch s1 = true) (h2 : ipv4FullMatch s2 = true) :
    ((redactFull r s1).1 = (redactFull (redactFull r s1).2 s2).1 ↔
      hashValue s1 = hashValue s2) ∧
    (redactFull r s1).1 = "[" ++ "IPV4" ++ ":" ++ hashValue s1 ++ "]" ∧
    RedactorWF (redactFull (redactFull r s1).2 s2).2 := by
  have hr1 : redactFull r s1 = getPlaceholder r s1 "IPV4" := by
    unfold redactFull
    rw [if_pos hen]
  obtain ⟨hv1, hwf1⟩ := getPlaceholder_spec r s1 hwf
  have hen1 : (getPlaceholder r s1 "IPV4").2.enabled = true := by
    unfold getPlaceholder
    cases hf : r.hashMap.find? (fun kv => kv.1 == s1) with
    | some kv => exact hen
    | none => exact hen
  have hr2 : redactFull (redactFull r s1).2 s2 =
      getPlaceholder (getPlaceholder r s1 "IPV4").2 s2 "IPV4" := by
    rw [hr1]
    unfold redactFull
    rw [if_pos hen1]
  obtain ⟨hv2, hwf2⟩ := getPlaceholder_spec (getPlaceholder r s1 "IPV4").2 s2 hwf1
  refine ⟨?_, by rw [hr1]; exact hv1, by rw [hr2]; exact hwf2⟩
  rw [hr2, hr1, hv1, hv2]
  constructor
  · exact fun h => placeholder_inj _ _ h
  · intro h
    rw [h]

/-- Witness for the amended C3 claim: on a fresh enabled redactor the
placeholder for 1.2.3.4 has the documented bracketed-hash shape. -/
theorem claim_C3_amended_witness :
    (redactFull (⟨true, []⟩ : Redactor) "1.2.3.4").1 =
      "[" ++ "IPV4" ++ ":" ++ hashValue "1.2.3.4" ++ "]" :=
  (claim_C3_amended ⟨true, []⟩ "1.2.3.4" "1.2.3.4" (fun kv hkv => by cases hkv) rfl
    (by decide) (by decide)).2.1

set_option maxRecDepth 10000 in
/-- Claim C1 (code bug): the spec says each template summary's level equals
the highest severity observed across its entries and that Error/Fatal
templates are routed to the Error Summary section.  At the failing input -
one Error-level entry matching one template - the code produces level
`LevelUnknown` (the severity fold starts at `LevelUnknown = 5`, the
numerically largest enum value, so `entry.Level > maxLevel` never fires) and
routes the template to the Top Info Patterns section, never to the Error
Summary. -/
theorem claim_C1_level_always_unknown :
    (compress 8000 [c1entry] [c1template] 0).templates =
      [⟨"disk failure", 1, LevelUnknown, [], 0, 0⟩] ∧
    c1entry.level = LevelError ∧
    strHasSub (compress 8000 [c1entry] [c1template] 0).summary
      "=== Top Info Patterns ===" = true ∧
    strHasSub (compress 8000 [c1entry] [c1template] 0).summary
      "=== Error Summary ===" = false := by
  decide

set_option maxRecDepth 20000 in
/-- Claim C2 counterexample.  First conjunct: at token limit 6000, one entry
and 827 identical matching templates, the compressor's output has
tokenCount 6430 > 6000 + 200, refuting the budget law (the loop charges
each 31-byte template line 31/4 = 7 tokens, losing the remainder, and the
section header, final newline and footer are never charged).  Second
conjunct: with a large error template ahead of a small one, the emission
loop breaks at the large one and emits no error template even though the
small one's rendered size alone fits the budget, refuting the emission
law. -/
theorem claim_C2_counterexample :
    ¬ ((compress 6000 [c2entry] (List.replicate 827 c2template) 0).tokenCount ≤ 6000 + 200) ∧
    ((writeTemplates "" [c2big, c2small] 300).included = [] ∧
     c2small.level = LevelError ∧
     estimateTokens "" + estimateTokens (formatTemplate c2small) ≤ 300 - 200) := by
  refine ⟨?_, by decide, by decide, by decide⟩
  rw [c2_tokenCount]
  norm_num

/-- Claim C2 (amended): the compressor's running token tally - the header
estimate plus the sum of the separate estimates of the included templates -
never exceeds tokenLimit - 200 once any template is included (the final
tokenCount, which also counts section headers, footer and the division
remainders lost by per-template estimation, can exceed tokenLimit + 200);
and error templates are emitted greedily: the first error template in
priority order is emitted whenever the header estimate plus its own
estimate does not exceed tokenLimit - 200. -/
theorem claim_C2_amended (sb0 : String) (ts : List TemplateSummary) (L : Int) :
    ((writeTemplates sb0 ts L).included ≠ [] →
      estimateTokens sb0 +
        (((writeTemplates sb0 ts L).included.map
          (fun t => estimateTokens (formatTemplate t))).sum) ≤ L - 200) ∧
    (∀ e es, ts.filter (fun t => t.level == LevelFatal || t.level == LevelError) = e :: es →
      estimateTokens sb0 + estimateTokens (formatTemplate e) ≤ L - 200 →
      e ∈ (writeTemplates sb0 ts L).included) := by
  obtain ⟨h1, h2⟩ := writeTemplates_inv sb0 ts L
  constructor
  · intro hne
    rw [← h1]
    exact h2 hne
  · intro e es he hf
    exact writeTemplates_first_error sb0 ts L e es he hf

/-- Witness for the amended C2 claim at a concrete input: one small error
template under limit 300 is included, and the tally law holds there. -/
theorem claim_C2_amended_witness :
    (estimateTokens "" +
      (((writeTemplates "" [c2small] 300).included.map
        (fun t => estimateTokens (formatTemplate t))).sum) ≤ 300 - 200) ∧
    c2small ∈ (writeTemplates "" [c2small] 300).included :=
  ⟨(claim_C2_amended "" [c2small] 300).1 (by decide),
   (claim_C2_amended "" [c2small] 300).2 c2small [] (by decide) (by decide)⟩

/-- Claim C6 counterexample: with a non-empty entry list and an empty
template list the summary does not contain the sentinel - the code's guard
tests the entry list, not the template list. -/
theorem claim_C6_counterexample :
    (compress 8000 [⟨"boot", LevelInfo, 0⟩] [] 0).totalTemplates = 0 ∧
    strHasSub (compress 8000 [⟨"boot", LevelInfo, 0⟩] [] 0).summary
      "No log entries to analyze" = false := by
  decide

/-- Claim C6 (amended): whenever the entry list given to the compressor is
empty, the returned summary is exactly the sentinel string, hence contains
it.  (The code's empty-input guard is on the entries, not the templates.) -/
theorem claim_C6_amended (templates : List Template) (redactedCount : Nat) (tokenLimit : Int) :
    (compress tokenLimit [] templates redactedCount).summary = "No log entries to analyze." ∧
    strHasSub (compress tokenLimit [] templates redactedCount).summary
      "No log entries to analyze" = true := by
  have h : (compress tokenLimit [] templates redactedCount).summary =
      "No log entries to analyze." := rfl
  exact ⟨h, by rw [h]; decide⟩

/-! ### C5: the scanner's 1 MiB line ceiling -/

theorem findNLAux_replicate_nl (n : Nat) :
    ∀ lim, n < lim → findNLAux (List.replicate n 97 ++ [10]) lim = some n := by
  induction n with
  | zero =>
    intro lim hlim
    cases lim with
    | zero => omega
    | succ lim => rfl
  | succ n ih =>
    intro lim hlim
    cases lim with
    | zero => omega
    | succ lim =>
      rw [List.replicate_succ, List.cons_append]
      simp only [findNLAux]
      rw [if_neg (by decide), ih lim (by omega)]
      rfl

theorem findNLAux_window (lim : Nat) :
    ∀ L, lim ≤ L → findNLAux (List.replicate L 97 ++ [10]) lim = none := by
  induction lim with
  | zero =>
    intro L _
    cases L with
    | zero => rfl
    | succ L => rw [List.replicate_succ, List.cons_append]; rfl
  | succ lim ih =>
    intro L hL
    cases L with
    | zero => omega
    | succ L =>
      rw [List.replicate_succ, List.cons_append]
      simp only [findNLAux]
      rw [if_neg (by decide), ih L (by omega)]
      rfl

theorem dropCR_replicate (n : Nat) :
    dropCR (List.replicate (n + 1) 97) = List.replicate (n + 1) 97 := by
  rw [dropCR, List.getLast?_replicate]
  simp

theorem isBlankLine_replicate (n : Nat) :
    isBlankLine (List.replicate (n + 1) 97) = false := by
  rw [List.replicate_succ]
  simp [isBlankLine]

/-- The scanner discipline on one newline-terminated line of `L` bytes:
inside the 1 MiB window the line is delivered (as the sole entry, line
number 1); at or beyond the window the scanner stops with the token-too-
long error and nothing is delivered. -/
theorem scan_one_line (L : Nat) (hL : 1 ≤ L) :
    parseStreamTokens (List.replicate L 97 ++ [10]) =
      if L < maxScanTokenSize then ([(List.replicate L 97, 1)], none)
      else ([], some ScanError.tooLong) := by
  cases L with
  | zero => omega
  | succ L =>
    have hlen : (List.replicate (L + 1) (97 : Nat) ++ [10]).length = (L + 1) + 1 := by
      simp
    have hcons : List.replicate (L + 1) (97 : Nat) ++ [10] =
        97 :: (List.replicate L 97 ++ [10]) := by
      rw [List.replicate_succ, List.cons_append]
    by_cases hmax : L + 1 < maxScanTokenSize
    · rw [if_pos hmax]
      have hfind : findNL (97 :: (List.replicate L 97 ++ [10])) = some (L + 1) := by
        rw [findNL, ← hcons]
        exact findNLAux_replicate_nl (L + 1) maxScanTokenSize hmax
      have htake : (97 :: (List.replicate L 97 ++ [10])).take (L + 1) =
          List.replicate (L + 1) 97 := by
        rw [← hcons]
        have h2 := List.take_left (List.replicate (L + 1) (97 : Nat)) [10]
        rwa [List.length_replicate] at h2
      have hdrop : (97 :: (List.replicate L 97 ++ [10])).drop ((L + 1) + 1) = [] := by
        rw [← hcons]
        exact List.drop_eq_nil_of_le (le_of_eq hlen)
      have hscan : scanAux ((L + 1) + 1) (97 :: (List.replicate L 97 ++ [10])) =
          ([List.replicate (L + 1) 97], none) := by
        simp only [scanAux]
        rw [hfind]
        dsimp only
        rw [htake, hdrop, dropCR_replicate]
        simp only [scanAux]
      simp only [parseStreamTokens, scanLines]
      rw [hlen, hcons, hscan]
      simp [numberLines, isBlankLine_replicate]
    · rw [if_neg hmax]
      have hfind : findNL (97 :: (List.replicate L 97 ++ [10])) = none := by
        rw [findNL, ← hcons]
        exact findNLAux_window maxScanTokenSize (L + 1) (by omega)
      have hscan : scanAux ((L + 1) + 1) (97 :: (List.replicate L 97 ++ [10])) =
          ([], some ScanError.tooLong) := by
        simp only [scanAux]
        rw [hfind]
        dsimp only
        rw [if_pos]
        simp only [List.length_cons, List.length_append, List.length_replicate,
          List.length_nil]
        omega
      simp only [parseStreamTokens, scanLines]
      rw [hlen, hcons, hscan]
      simp [numberLines]

/-- Claim C5 counterexample: a newline-terminated line of exactly 1 MiB
(1048576 bytes) does not succeed - the scanner fails with its token-too-
long error, no entry is emitted, and there is no structured parse error
carrying an offset anywhere in the result. -/
theorem claim_C5_counterexample :
    parseStreamTokens (List.replicate maxScanTokenSize 97 ++ [10]) =
      ([], some ScanError.tooLong) ∧
    maxScanTokenSize = 1024 * 1024 := by
  constructor
  · have h := scan_one_line maxScanTokenSize (by decide)
    rwa [if_neg (Nat.lt_irrefl maxScanTokenSize)] at h
  · decide

/-- Claim C5 (amended): for a single newline-terminated non-blank line of
`L` bytes, parsing succeeds and emits exactly one entry (at line number 1)
iff `L` is strictly below the 1 MiB scanner ceiling; at `L = 1 MiB` and
beyond the scanner stops with its unstructured token-too-long error and
emits nothing. -/
theorem claim_C5_amended (L : Nat) (hL : 1 ≤ L) :
    parseStreamTokens (List.replicate L 97 ++ [10]) =
      if L < maxScanTokenSize then ([(List.replicate L 97, 1)], none)
      else ([], some ScanError.tooLong) :=
  scan_one_line L hL

/-- Witness for C5: a concrete 3-byte line is emitted as the sole entry. -/
theorem claim_C5_amended_witness :
    1 ≤ 3 ∧
    parseStreamTokens (List.replicate 3 97 ++ [10]) =
      if 3 < maxScanTokenSize then ([(List.replicate 3 97, 1)], none)
      else ([], some ScanError.tooLong) :=
  ⟨by decide, claim_C5_amended 3 (by decide)⟩

/-! ### C8: analyzer windows are contiguous -/

theorem minMaxStep_entry (a b : Nat) (e : LogEntry) (he : e.timestamp ≠ 0)
    (h0 : (a = 0 ∧ b = 0) ∨ (0 < a ∧ 0 < b ∧ a ≤ b)) :
    0 < (minMaxStep (a, b) e).1 ∧ 0 < (minMaxStep (a, b) e).2 ∧
      (minMaxStep (a, b) e).1 ≤ (minMaxStep (a, b) e).2 := by
  unfold minMaxStep
  split_ifs <;> refine ⟨?_, ?_, ?_⟩ <;> (try dsimp only) <;> omega

theorem foldl_minMax_pos :
    ∀ (l : List LogEntry) (mm : Nat × Nat),
      ((mm.1 = 0 ∧ mm.2 = 0) ∨ (0 < mm.1 ∧ 0 < mm.2 ∧ mm.1 ≤ mm.2)) →
      ((∃ e ∈ l, e.timestamp ≠ 0) ∨ (0 < mm.1 ∧ 0 < mm.2 ∧ mm.1 ≤ mm.2)) →
      0 < (l.foldl minMaxStep mm).1 ∧ 0 < (l.foldl minMaxStep mm).2 ∧
        (l.foldl minMaxStep mm).1 ≤ (l.foldl minMaxStep mm).2 := by
  intro l
  induction l with
  | nil =>
    intro mm _ hex
    rcases hex with ⟨e, he, _⟩ | h
    · exact absurd he (List.not_mem_nil e)
    · exact h
  | cons e rest ih =>
    intro mm hinv hex
    rw [List.foldl_cons]
    by_cases he : e.timestamp = 0
    · have hstep : minMaxStep mm e = mm := by simp [minMaxStep, he]
      rw [hstep]
      apply ih mm hinv
      rcases hex with ⟨e2, he2, hne⟩ | h
      · rcases List.mem_cons.mp he2 with rfl | hmem
        · exact absurd he hne
        · exact Or.inl ⟨e2, hmem, hne⟩
      · exact Or.inr h
    · have hpos := minMaxStep_entry mm.1 mm.2 e he hinv
      exact ih _ (Or.inr hpos) (Or.inr hpos)

theorem windowStartsAux_nil (fuel W maxT current : Nat) (h : ¬ current ≤ maxT) :
    windowStartsAux fuel W maxT current = [] := by
  cases fuel with
  | zero => rfl
  | succ fuel => simp [windowStartsAux, h]

theorem windowStartsAux_props (W : Nat) (hW : 0 < W) :
    ∀ fuel current maxT, maxT < current + fuel * W → current ≤ maxT →
      ∃ L, windowStartsAux fuel W maxT current = current :: L ∧
        List.Chain' (fun a b => a + W = b) (current :: L) ∧
        (∃ s, (current :: L).getLast? = some s ∧ s ≤ maxT ∧ maxT < s + W) := by
  intro fuel
  induction fuel with
  | zero => intro current maxT hfuel hle; omega
  | succ fuel ih =>
    intro current maxT hfuel hle
    rw [windowStartsAux, if_pos hle]
    by_cases hc : current + W ≤ maxT
    · have hfuel2 : maxT < (current + W) + fuel * W := by
        have hsm : (fuel + 1) * W = fuel * W + W := Nat.succ_mul fuel W
        omega
      obtain ⟨L2, hL2, hchain, s, hlast, hs1, hs2⟩ := ih (current + W) maxT hfuel2 hc
      refine ⟨(current + W) :: L2, ?_, ?_, s, ?_, hs1, hs2⟩
      · rw [hL2]
      · exact List.chain'_cons.mpr ⟨rfl, hchain⟩
      · rw [List.getLast?_cons_cons, hlast]
    · have hnil : windowStartsAux fuel W maxT (current + W) = [] :=
        windowStartsAux_nil fuel W maxT (current + W) hc
      rw [hnil]
      exact ⟨[], rfl, List.chain'_singleton current, current, rfl, hle, by omega⟩

/-- The `(Start, End)` span of a window. -/
theorem map_set_span :
    ∀ (l : List TimeWindowStats) (i : Nat) (a : TimeWindowStats),
      (∀ h : i < l.length, a.start = (l.get ⟨i, h⟩).start ∧ a.endT = (l.get ⟨i, h⟩).endT) →
      (l.set i a).map (fun w => (w.start, w.endT)) = l.map (fun w => (w.start, w.endT)) := by
  intro l
  induction l with
  | nil => intro i a _; rfl
  | cons x xs ih =>
    intro i a ha
    cases i with
    | zero =>
      obtain ⟨h1, h2⟩ := ha (by simp)
      simp only [List.set_cons_zero, List.map_cons]
      rw [show a.start = x.start from h1, show a.endT = x.endT from h2]
    | succ i =>
      simp only [List.set_cons_succ, List.map_cons]
      rw [ih i a (fun h => ha (Nat.succ_lt_succ h))]

theorem assignEntry_span (s W : Nat) (ws : List TimeWindowStats) (e : LogEntry) :
    (assignEntry s W ws e).map (fun w => (w.start, w.endT)) =
      ws.map (fun w => (w.start, w.endT)) := by
  rw [assignEntry]
  dsimp only
  split_ifs with h1 h2
  · rfl
  · apply map_set_span
    intro h
    exact ⟨rfl, rfl⟩
  · rfl

theorem foldl_assign_span (s W : Nat) :
    ∀ (entries : List LogEntry) (ws : List TimeWindowStats),
      (entries.foldl (assignEntry s W) ws).map (fun w => (w.start, w.endT)) =
        ws.map (fun w => (w.start, w.endT)) := by
  intro entries
  induction entries with
  | nil => intro ws; rfl
  | cons e rest ih =>
    intro ws
    rw [List.foldl_cons, ih, assignEntry_span]

/-- Claim C8: with a positive window and at least one non-zero timestamp,
the analyzer's windows tile `[minT.Truncate(W), maxT]`: the first window
starts at the truncation of the minimum non-zero timestamp, every window
ends exactly `W` after it starts, each window's end is the next window's
start, and the last window contains the maximum timestamp. -/
theorem claim_C8_windows_contiguous (entries : List LogEntry) (W : Nat)
    (hW : 0 < W) (hne : ∃ e ∈ entries, e.timestamp ≠ 0) :
    (analyzeByWindow entries W).head?.map (fun w => w.start) =
        some (timeTruncate (minMaxNonzero entries).1 W) ∧
    (∀ w ∈ analyzeByWindow entries W, w.endT = w.start + W) ∧
    List.Chain' (fun a b => a.endT = b.start) (analyzeByWindow entries W) ∧
    (∃ w, (analyzeByWindow entries W).getLast? = some w ∧
      w.start ≤ (minMaxNonzero entries).2 ∧ (minMaxNonzero entries).2 < w.endT) := by
  obtain ⟨hp1, hp2, hl12⟩ :=
    foldl_minMax_pos entries (0, 0) (Or.inl ⟨rfl, rfl⟩) (Or.inl hne)
  have hpos1 : 0 < (minMaxNonzero entries).1 := hp1
  have hpos2 : 0 < (minMaxNonzero entries).2 := hp2
  have hle12 : (minMaxNonzero entries).1 ≤ (minMaxNonzero entries).2 := hl12
  have hnil : entries ≠ [] := by
    rintro rfl
    exact absurd hne (by simp)
  have hguard : ¬ ((minMaxNonzero entries).1 = 0 ∨ (minMaxNonzero entries).2 = 0) := by
    omega
  have hW0 : ¬ W = 0 := by omega
  have hana : analyzeByWindow entries W =
      entries.foldl
        (assignEntry (timeTruncate (minMaxNonzero entries).1 W) W)
        ((windowStartsAux
            (((minMaxNonzero entries).2 - timeTruncate (minMaxNonzero entries).1 W) / W + 1)
            W (minMaxNonzero entries).2
            (timeTruncate (minMaxNonzero entries).1 W)).map
          (fun s => TimeWindowStats.mk s (s + W) 0 0 [])) := by
    simp only [analyzeByWindow, if_neg hnil, if_neg hguard, if_neg hW0]
  have hs0le : timeTruncate (minMaxNonzero entries).1 W ≤ (minMaxNonzero entries).2 := by
    have hmod := Nat.mod_le ((minMaxNonzero entries).1) W
    rw [timeTruncate, if_neg hW0]
    omega
  have hfuel : (minMaxNonzero entries).2 <
      timeTruncate (minMaxNonzero entries).1 W +
        (((minMaxNonzero entries).2 - timeTruncate (minMaxNonzero entries).1 W) / W + 1) * W := by
    have hsm : (((minMaxNonzero entries).2 - timeTruncate (minMaxNonzero entries).1 W) / W + 1)
          * W =
        ((minMaxNonzero entries).2 - timeTruncate (minMaxNonzero entries).1 W) / W * W + W := by
      rw [Nat.add_mul, Nat.one_mul]
    have hdm := Nat.div_add_mod
      ((minMaxNonzero entries).2 - timeTruncate (minMaxNonzero entries).1 W) W
    have hml := Nat.mod_lt
      ((minMaxNonzero entries).2 - timeTruncate (minMaxNonzero entries).1 W) hW
    have hmc : ((minMaxNonzero entries).2 - timeTruncate (minMaxNonzero entries).1 W) / W * W =
        W * (((minMaxNonzero entries).2 - timeTruncate (minMaxNonzero entries).1 W) / W) :=
      Nat.mul_comm _ _
    omega
  obtain ⟨L, hstarts, hchain, s, hlast, hs1, hs2⟩ :=
    windowStartsAux_props W hW
      (((minMaxNonzero entries).2 - timeTruncate (minMaxNonzero entries).1 W) / W + 1)
      (timeTruncate (minMaxNonzero entries).1 W) ((minMaxNonzero entries).2) hfuel hs0le
  have hspan : (analyzeByWindow entries W).map (fun w => (w.start, w.endT)) =
      ((timeTruncate (minMaxNonzero entries).1 W) :: L).map (fun t => (t, t + W)) := by
    rw [hana, foldl_assign_span, List.map_map, hstarts]
    rfl
  refine ⟨?_, ?_, ?_, ?_⟩
  · have hh := congrArg List.head? hspan
    rw [List.head?_map, List.head?_map, List.head?_cons] at hh
    cases hh2 : (analyzeByWindow entries W).head? with
    | none => rw [hh2] at hh; simp at hh
    | some w =>
      rw [hh2] at hh
      simp at hh
      simp only [Option.map_some']
      exact congrArg some hh.1
  · intro w hw
    have hmem : (w.start, w.endT) ∈
        ((timeTruncate (minMaxNonzero entries).1 W) :: L).map (fun t => (t, t + W)) := by
      rw [← hspan]
      exact List.mem_map_of_mem (fun w => (w.start, w.endT)) hw
    obtain ⟨t, _, ht⟩ := List.mem_map.mp hmem
    have h1 : w.start = t := (congrArg Prod.fst ht).symm
    have h2 : w.endT = t + W := (congrArg Prod.snd ht).symm
    rw [h1, h2]
  · have hch2 : List.Chain' (fun p q : Nat × Nat => p.2 = q.1)
        (((timeTruncate (minMaxNonzero entries).1 W) :: L).map (fun t => (t, t + W))) := by
      rw [List.chain'_map]
      exact List.Chain'.imp (fun a b hab => hab) hchain
    rw [← hspan, List.chain'_map] at hch2
    exact hch2
  · have hl := congrArg List.getLast? hspan
    rw [List.getLast?_map, List.getLast?_map, hlast] at hl
    cases hl2 : (analyzeByWindow entries W).getLast? with
    | none => rw [hl2] at hl; simp at hl
    | some w =>
      rw [hl2] at hl
      simp at hl
      refine ⟨w, rfl, ?_, ?_⟩
      · rw [hl.1]; exact hs1
      · rw [hl.2]; exact hs2

/-! ### C9: prompt builder determinism and distinct system prompts -/

/-- Claim C9: `Build` is deterministic (equal type and options give equal
message lists), the system prompts of the five declared prompt types are
pairwise distinct byte strings, and every successful `Build` result
begins with the system message for its type. -/
theorem claim_C9_deterministic_distinct :
    (∀ (pt pt2 : PromptType) (opts opts2 : BuildOptions),
      pt = pt2 → opts = opts2 → buildMessages pt opts = buildMessages pt2 opts2) ∧
    (∀ pt pt2 : PromptType,
      pt ∈ [TypeSummarize, TypeRootCause, TypeAnomalyDetection,
        TypeNaturalLanguageQuery, TypeStructuredOutput] →
      pt2 ∈ [TypeSummarize, TypeRootCause, TypeAnomalyDetection,
        TypeNaturalLanguageQuery, TypeStructuredOutput] →
      pt ≠ pt2 → systemPrompt pt ≠ systemPrompt pt2) ∧
    (∀ (pt : PromptType) (opts : BuildOptions) (msgs : List Message),
      buildMessages pt opts = Except.ok msgs →
      msgs.head? = some (Message.mk "system" (systemPrompt pt))) := by
  refine ⟨fun pt pt2 opts opts2 h1 h2 => by rw [h1, h2], ?_, ?_⟩
  · intro pt pt2 h1 h2 hne
    simp only [List.mem_cons, List.not_mem_nil, or_false] at h1 h2
    rcases h1 with rfl | rfl | rfl | rfl | rfl <;>
      rcases h2 with rfl | rfl | rfl | rfl | rfl <;>
      first
        | exact absurd rfl hne
        | decide
  · intro pt opts msgs hok
    rw [buildMessages] at hok
    split_ifs at hok with hsum hnlq hso
    · unfold buildNaturalLanguageQuery at hok
      split_ifs at hok with hq
      dsimp only at hok
      rw [← Except.ok.inj hok, hnlq]
      rfl
    · unfold buildStructuredOutput at hok
      dsimp only at hok
      split_ifs at hok with hf
      · rw [← Except.ok.inj hok, hso]
        rfl
      · rw [← Except.ok.inj hok, hso]
        rfl
    · unfold buildStandard at hok
      rw [← Except.ok.inj hok]
      rfl

/-- Witness for C9 at the summarize type: determinism at a concrete
option record, distinct summarize/root-cause system prompts, and the
system-first shape of a concrete successful build. -/
theorem claim_C9_witness :
    (buildMessages TypeSummarize (BuildOptions.mk "s" "" [] "" "" "" "" "" "") =
      buildMessages TypeSummarize (BuildOptions.mk "s" "" [] "" "" "" "" "" "")) ∧
    systemPrompt TypeSummarize ≠ systemPrompt TypeRootCause ∧
    ([Message.mk "system" (systemPrompt TypeSummarize),
      Message.mk "user" (buildStandardUserMessage TypeSummarize
        (BuildOptions.mk "s" "" [] "" "" "" "" "" ""))].head? =
      some (Message.mk "system" (systemPrompt TypeSummarize))) :=
  ⟨claim_C9_deterministic_distinct.1 TypeSummarize TypeSummarize
     (BuildOptions.mk "s" "" [] "" "" "" "" "" "")
     (BuildOptions.mk "s" "" [] "" "" "" "" "" "") rfl rfl,
   claim_C9_deterministic_distinct.2.1 TypeSummarize TypeRootCause
     (by decide) (by decide) (by decide),
   claim_C9_deterministic_distinct.2.2 TypeSummarize
     (BuildOptions.mk "s" "" [] "" "" "" "" "" "")
     [Message.mk "system" (systemPrompt TypeSummarize),
      Message.mk "user" (buildStandardUserMessage TypeSummarize
        (BuildOptions.mk "s" "" [] "" "" "" "" "" ""))]
     rfl⟩

/-! ### C10: entry-template linking -/

theorem specMatchShape_eq :
    ∀ (ps ms : List String),
      specMatchShape ps ms =
        ((ms.length == ps.length) &&
          (ps.zip ms).all (fun p => p.1 == "<*>" || p.1 == p.2)) := by
  intro ps
  induction ps with
  | nil =>
    intro ms
    cases ms with
    | nil => rfl
    | cons m ms => rfl
  | cons p ps ih =>
    intro ms
    cases ms with
    | nil => rfl
    | cons m ms =>
      have hsucc : ((ms.length + 1 : Nat) == ps.length + 1) = (ms.length == ps.length) := by
        by_cases hh : ms.length = ps.length
        · rw [show ((ms.length + 1 : Nat) == ps.length + 1) = true from
              beq_iff_eq.mpr (by omega),
            show ((ms.length : Nat) == ps.length) = true from beq_iff_eq.mpr hh]
        · rw [show ((ms.length + 1 : Nat) == ps.length + 1) = false from
              beq_eq_false_iff_ne.mpr (by omega),
            show ((ms.length : Nat) == ps.length) = false from beq_eq_false_iff_ne.mpr hh]
      rw [show specMatchShape (p :: ps) (m :: ms) =
          ((p == "<*>" || p == m) && specMatchShape ps ms) from rfl,
        ih ms, List.zip_cons_cons, List.all_cons, List.length_cons, List.length_cons, hsucc]
      exact Bool.and_left_comm _ _ _

theorem alistGet_cons_eq (k0 k2 : String) (v : List LogEntry)
    (m : List (String × List LogEntry)) (h : k0 = k2) :
    alistGet ((k0, v) :: m) k2 = v := by
  rw [alistGet, List.find?_cons_of_pos m (by simp [h])]

theorem alistGet_cons_ne (k0 k2 : String) (v : List LogEntry)
    (m : List (String × List LogEntry)) (h : ¬ k0 = k2) :
    alistGet ((k0, v) :: m) k2 = alistGet m k2 := by
  rw [alistGet, List.find?_cons_of_neg m (by simp [h]), alistGet]

theorem alistGet_alistAppend :
    ∀ (m : List (String × List LogEntry)) (k k2 : String) (e : LogEntry),
      alistGet (alistAppend m k e) k2 =
        if k2 = k then alistGet m k ++ [e] else alistGet m k2 := by
  intro m
  induction m with
  | nil =>
    intro k k2 e
    by_cases h : k2 = k
    · rw [alistAppend, alistGet_cons_eq k k2 [e] [] h.symm, if_pos h]
      rfl
    · rw [alistAppend, alistGet_cons_ne k k2 [e] [] (fun hh => h hh.symm), if_neg h]
  | cons kv m ih =>
    intro k k2 e
    obtain ⟨k0, v0⟩ := kv
    rw [alistAppend]
    dsimp only
    by_cases h1 : k0 = k
    · rw [if_pos (by simp [h1])]
      by_cases h2 : k2 = k
      · subst h2
        rw [alistGet_cons_eq k0 k2 _ m h1, if_pos rfl,
          alistGet_cons_eq k0 k2 v0 m h1]
      · have h3 : ¬ (k0 = k2) := by rw [h1]; exact fun hh => h2 hh.symm
        rw [alistGet_cons_ne k0 k2 _ m h3, if_neg h2, alistGet_cons_ne k0 k2 v0 m h3]
    · rw [if_neg (by simp [h1])]
      by_cases h2 : k0 = k2
      · have hne : ¬ (k2 = k) := by rw [← h2]; exact fun hh => h1 hh
        rw [alistGet_cons_eq k0 k2 v0 _ h2, if_neg hne, alistGet_cons_eq k0 k2 v0 m h2]
      · rw [alistGet_cons_ne k0 k2 v0 _ h2, ih k k2 e]
        by_cases h3 : k2 = k
        · rw [if_pos h3, if_pos h3]
          have h4 : ¬ (k0 = k) := h1
          rw [alistGet_cons_ne k0 k v0 m h4]
        · rw [if_neg h3, if_neg h3, alistGet_cons_ne k0 k2 v0 m h2]

theorem linkEntries_bucket (templates : List Template)
    (hid : (templates.map Template.id).Nodup) :
    ∀ (entries : List LogEntry) (m : List (String × List LogEntry)),
      ∀ t ∈ templates,
        alistGet
            (entries.foldl
              (fun m e =>
                match templates.find? (fun t2 => matchesTemplate e.message t2) with
                | some t2 => alistAppend m t2.id e
                | none => m)
              m) t.id =
          alistGet m t.id ++
            entries.filter
              (fun e => templates.find? (fun t2 => matchesTemplate e.message t2) == some t) := by
  intro entries
  induction entries with
  | nil => intro m t ht; simp
  | cons e rest ih =>
    intro m t ht
    simp only [List.foldl_cons, List.filter_cons]
    cases hf : templates.find? (fun t2 => matchesTemplate e.message t2) with
    | none =>
      dsimp only
      have hbeq : ((none : Option Template) == some t) = false := rfl
      rw [hbeq, if_neg Bool.false_ne_true]
      exact ih m t ht
    | some t0 =>
      have ht0 : t0 ∈ templates := List.mem_of_find?_eq_some hf
      have hstep := ih (alistAppend m t0.id e) t ht
      dsimp only
      rw [hstep, alistGet_alistAppend]
      by_cases htt : t0 = t
      · subst htt
        have hbeq : (some t0 == some t0) = true := by simp
        rw [hbeq, if_pos rfl, if_pos rfl]
        simp
      · have hidne : ¬ (t.id = t0.id) := fun hh =>
          htt (List.inj_on_of_nodup_map hid ht0 ht hh.symm)
        have hbeq : (some t0 == some t) = false := by
          rw [beq_eq_false_iff_ne]
          exact fun hh => htt (Option.some.inj hh)
        rw [hbeq, if_neg Bool.false_ne_true, if_neg hidne]

/-- Claim C10 counterexample: two templates sharing the identifier `t`
(patterns `a` and `b`) and one entry `b`: the entry matches only the
second template, yet both summaries are produced and both receive the
entry's timestamp, because the bucket map is keyed by template ID. -/
theorem claim_C10_counterexample :
    matchesTemplate "b" (Template.mk "t" "a" ["a"] 1 []) = false ∧
    (createTemplateSummaries [LogEntry.mk "b" LevelError 5]
        [Template.mk "t" "a" ["a"] 1 [], Template.mk "t" "b" ["b"] 1 []]).map
      (fun s => (s.pattern, s.firstSeen)) = [("a", 5), ("b", 5)] := by
  decide

/-- Claim C10 (amended): when the supplied templates carry pairwise
distinct identifiers, linking is single-bucket first-match: the source's
`matchesTemplate` coincides with token-for-token matching where `<*>`
matches any single token, each template's bucket holds exactly the
entries whose first matching template it is (so an entry contributes to
at most one summary and a non-matching entry to none), and the summaries
are computed from precisely those buckets. -/
theorem claim_C10_amended (entries : List LogEntry) (templates : List Template)
    (hid : (templates.map Template.id).Nodup) :
    (∀ (message : String) (t : Template),
      matchesTemplate message t = specMatches message t) ∧
    (∀ t ∈ templates,
      alistGet (linkEntries entries templates) t.id =
        entries.filter
          (fun e => templates.find? (fun t2 => matchesTemplate e.message t2) == some t)) ∧
    createTemplateSummaries entries templates =
      templates.filterMap
        (fun t =>
          let es := entries.filter
            (fun e => templates.find? (fun t2 => matchesTemplate e.message t2) == some t)
          if es.isEmpty then none else some (summaryOf t es)) := by
  have hbucket : ∀ t ∈ templates,
      alistGet (linkEntries entries templates) t.id =
        entries.filter
          (fun e => templates.find? (fun t2 => matchesTemplate e.message t2) == some t) := by
    intro t ht
    have := linkEntries_bucket templates hid entries [] t ht
    simpa [linkEntries] using this
  refine ⟨?_, hbucket, ?_⟩
  · intro message t
    rw [matchesTemplate, specMatches, specMatchShape_eq]
  · rw [createTemplateSummaries]
    apply List.filterMap_congr
    intro t ht
    rw [hbucket t ht]

/-- Witness for C10: distinct-ID templates, one entry matching the first
of them. -/
theorem claim_C10_amended_witness :
    ((([Template.mk "T_1" "a" ["a"] 1 [],
        Template.mk "T_2" "b" ["b"] 1 []] : List Template).map Template.id).Nodup) ∧
    ((∀ (message : String) (t : Template),
      matchesTemplate message t = specMatches message t) ∧
    (∀ t ∈ [Template.mk "T_1" "a" ["a"] 1 [], Template.mk "T_2" "b" ["b"] 1 []],
      alistGet (linkEntries [LogEntry.mk "a" LevelError 5]
          [Template.mk "T_1" "a" ["a"] 1 [], Template.mk "T_2" "b" ["b"] 1 []]) t.id =
        [LogEntry.mk "a" LevelError 5].filter
          (fun e => ([Template.mk "T_1" "a" ["a"] 1 [],
              Template.mk "T_2" "b" ["b"] 1 []] : List Template).find?
            (fun t2 => matchesTemplate e.message t2) == some t)) ∧
    createTemplateSummaries [LogEntry.mk "a" LevelError 5]
        [Template.mk "T_1" "a" ["a"] 1 [], Template.mk "T_2" "b" ["b"] 1 []] =
      ([Template.mk "T_1" "a" ["a"] 1 [],
        Template.mk "T_2" "b" ["b"] 1 []] : List Template).filterMap
        (fun t =>
          let es := [LogEntry.mk "a" LevelError 5].filter
            (fun e => ([Template.mk "T_1" "a" ["a"] 1 [],
                Template.mk "T_2" "b" ["b"] 1 []] : List Template).find?
              (fun t2 => matchesTemplate e.message t2) == some t)
          if es.isEmpty then none else some (summaryOf t es))) :=
  ⟨by decide,
   claim_C10_amended [LogEntry.mk "a" LevelError 5]
     [Template.mk "T_1" "a" ["a"] 1 [], Template.mk "T_2" "b" ["b"] 1 []]
     (by decide)⟩

/-- Witness for C8 at a concrete trace: two entries with timestamps 7 and
23, window 10, produce windows starting at 0. -/
theorem claim_C8_witness :
    (0 < 10 ∧ (∃ e ∈ [LogEntry.mk "a" LevelInfo 7, LogEntry.mk "b" LevelError 23],
      e.timestamp ≠ 0)) ∧
    ((analyzeByWindow [LogEntry.mk "a" LevelInfo 7, LogEntry.mk "b" LevelError 23] 10).head?.map
        (fun w => w.start) =
      some (timeTruncate
        (minMaxNonzero [LogEntry.mk "a" LevelInfo 7, LogEntry.mk "b" LevelError 23]).1 10) ∧
    (∀ w ∈ analyzeByWindow [LogEntry.mk "a" LevelInfo 7, LogEntry.mk "b" LevelError 23] 10,
      w.endT = w.start + 10) ∧
    List.Chain' (fun a b => a.endT = b.start)
      (analyzeByWindow [LogEntry.mk "a" LevelInfo 7, LogEntry.mk "b" LevelError 23] 10) ∧
    (∃ w, (analyzeByWindow [LogEntry.mk "a" LevelInfo 7, LogEntry.mk "b" LevelError 23]
        10).getLast? = some w ∧
      w.start ≤ (minMaxNonzero [LogEntry.mk "a" LevelInfo 7,
        LogEntry.mk "b" LevelError 23]).2 ∧
      (minMaxNonzero [LogEntry.mk "a" LevelInfo 7, LogEntry.mk "b" LevelError 23]).2 <
        w.endT)) :=
  ⟨⟨by decide, by decide⟩,
   claim_C8_windows_contiguous
     [LogEntry.mk "a" LevelInfo 7, LogEntry.mk "b" LevelError 23] 10
     (by decide) (by decide)⟩

end Cyro
